import Mathlib

/-!
Verification of the browser-agent control loop
(`packages/core/src/agents/browser/browserAgent.ts`).

The orchestrator loop `runTask` and the visual-delegate sub-loop
`runVisualDelegate` are embedded shallowly.  External collaborators (the
browser driver, the streaming model client, the single-shot model client,
the logging adapter) are modelled by an environment record of oracles
indexed by turn number; the interpreter below follows the control flow of
the TypeScript source line by line.

Modelling conventions:
* The `AbortSignal` is cooperative and monotone: the code reads
  `signal.aborted` at fixed checkpoints (top of turn, after state capture,
  after each streamed chunk, after the stream ends, before each tool
  dispatch).  We number these reads 0, 1, 2, … in program order and model
  the signal as an optional threshold `abortAfter`: read number `k`
  observes `true` exactly when `abortAfter = some n` with `n ≤ k`.  This
  captures every monotone signal.
* `getMcpClient` + `callTool('take_snapshot', …)` at the top of a turn is
  one driver operation, `Env.capture`, returning either the joined
  snapshot text or a thrown error message.
* Each dispatched tool handler other than `complete_task` (navigate,
  click, …, the MCP passthrough, the reflective fallback, and
  `delegate_to_visual_agent`) is a driver interaction producing a result
  string or throwing; it is modelled by `Env.dispatch turn callIndex`.
  The `complete_task` branch is pure and is translated directly.
* `debugLogger` calls, the turn-logging adapter (`void logger.…`), and the
  progress-callback lines that merely echo information already recorded in
  the event trace (thought excerpts, per-call announcements) are
  observational and elided; the progress-callback lines that are the sole
  observable of a control path (cancellation notices, completion notice,
  the corrective-re-prompt warning, error messages, the nameless-call
  warning) are recorded as `Event.emit`.
* The unused local `_textResponse` accumulator is dropped.
-/

deriving instance DecidableEq for Except

namespace BrowserAgent

/-- A message part of the orchestrator payload: plain text or a function
response (`{functionResponse: {name, response: {content: [{text}]}}}`). -/
inductive Part where
  | text (s : String)
  | functionResponse (name : String) (content : String)
deriving Repr, DecidableEq

/-- A function call streamed by the model.  As in `@google/genai`, `name`
is optional (the source guards `if (!fnName)`), and the arguments are
modelled as a string-keyed record. -/
structure FunctionCall where
  name : Option String
  args : List (String × String)
deriving Repr, DecidableEq

/-- One streamed chunk event: optional thought text, accumulated plain
text, and the function calls carried by the chunk. -/
structure Chunk where
  thought : Option String
  chunkText : String
  calls : List FunctionCall
deriving Repr, DecidableEq

/-- The behaviour of one `sendMessageStream` call: the chunks it yields,
then optionally a thrown error message (thrown when the consumer pulls
past the last chunk). -/
structure StreamBehavior where
  chunks : List Chunk
  err : Option String
deriving Repr, DecidableEq

/-- The environment: the behaviour of every external collaborator.
`connectFail` covers `ensureConnection` and the first
`updateBorderOverlay` (both inside the `try`); `overlay2Fail` is the
second `updateBorderOverlay`, which the source performs outside any
`try`/`catch`. -/
structure Env where
  connectFail : Option String
  overlay2Fail : Option String
  capture : Nat → Except String String
  stream : Nat → StreamBehavior
  dispatch : Nat → Nat → Except String String
  abortAfter : Option Nat

/-- Observable events of a run, in program order. -/
inductive Event where
  | capture (result : Except String String)
  | modelCall (payload : List Part)
  | dispatch (name : String) (response : String)
  | emit (line : String)
deriving Repr, DecidableEq

/-- `'⚠️  Browser task cancelled'`: the only cancellation notice the
source ever produces (it is passed to `printOutput`, never returned). -/
def cancelNotice : String := "⚠️  Browser task cancelled"

/-- The corrective re-prompt installed when a turn yields no function
calls. -/
def correctiveText : String :=
  "You must call the complete_task tool to finish. If the task is done, call complete_task with a summary. If you cannot complete the task, call complete_task explaining why."

/-- Warning printed when a turn yields no function calls. -/
def stoppedWarning : String :=
  "⚠️  Agent stopped without calling complete_task. Prompting to complete..."

/-- Warning printed for a function call without a name. -/
def noNameWarning : String := "❌ Warning: Received function call without name"

/-- The `k`-th read of `signal.aborted`. -/
def pollAborted (env : Env) (k : Nat) : Bool :=
  match env.abortAfter with
  | none => false
  | some n => decide (n ≤ k)

/-- `domSnapshot` as extracted from a capture outcome: a capture failure
is logged and the turn proceeds with the empty snapshot. -/
def captureText : Except String String → String
  | .ok s => s
  | .error _ => ""

/-- The `stateParts` built from the snapshot (pushed only when the
snapshot text is nonempty). -/
def stateParts (snap : String) : List Part :=
  if snap = "" then []
  else [Part.text ("<accessibility_tree>\n" ++ snap ++ "\n</accessibility_tree>")]

/-- Function calls collected from a chunk list, in emission order. -/
def chunksCalls : List Chunk → List FunctionCall
  | [] => []
  | c :: rest => c.calls ++ chunksCalls rest

/-- All function calls of a stream, in emission order. -/
def allCalls (sb : StreamBehavior) : List FunctionCall :=
  chunksCalls sb.chunks

/-- JS truthiness of `fnName`: `!fnName` holds for `undefined` and `''`. -/
def nameFalsy : Option String → Bool
  | none => true
  | some s => decide (s = "")

/-- `(fnArgs['summary'] as string) || 'Task completed'`. -/
def effectiveSummary (args : List (String × String)) : String :=
  match args.lookup "summary" with
  | some s => if s = "" then "Task completed" else s
  | none => "Task completed"

/-- State of the `for await (const event of stream)` loop: poll counter,
collected function calls, and whether an abort was observed mid-stream
(which `break`s out without pulling further, so a pending stream error is
never raised). -/
structure ChunkScan where
  poll : Nat
  calls : List FunctionCall
  abortedMid : Bool
deriving Repr, DecidableEq

/-- Consume the stream's chunks, checking `signal.aborted` before
processing each yielded chunk. -/
def scanChunks (env : Env) : List Chunk → Nat → List FunctionCall → ChunkScan
  | [], p, acc => { poll := p, calls := acc, abortedMid := false }
  | c :: rest, p, acc =>
    if pollAborted env p then { poll := p + 1, calls := acc, abortedMid := true }
    else scanChunks env rest (p + 1) (acc ++ c.calls)

/-- State of the tool-dispatch loop (`for (const call of functionCalls)`).
`responses` is `currentInputParts`, reset to `[]` before the loop. -/
structure DispatchState where
  poll : Nat
  responses : List Part
  taskCompleted : Bool
  taskSummary : String
  events : List Event
  abortedMid : Bool

/-- Dispatch the queued function calls in emission order, checking
`signal.aborted` before each dispatch.  `i` is the position of the head
call within the turn's call list. -/
def execCalls (env : Env) (turn : Nat) : Nat → List FunctionCall → DispatchState → DispatchState
  | _, [], st => st
  | i, c :: rest, st =>
    if pollAborted env st.poll then
      { st with poll := st.poll + 1,
                events := st.events ++ [Event.emit cancelNotice],
                abortedMid := true }
    else
      let st := { st with poll := st.poll + 1 }
      if nameFalsy c.name then
        execCalls env turn (i + 1) rest
          { st with events := st.events ++ [Event.emit noNameWarning] }
      else
        let fnName := c.name.getD ""
        if fnName = "complete_task" then
          let s := effectiveSummary c.args
          execCalls env turn (i + 1) rest
            { st with taskCompleted := true, taskSummary := s,
                      responses := st.responses ++ [Part.functionResponse fnName s],
                      events := st.events ++ [Event.dispatch fnName s, Event.emit ("✅ " ++ s)] }
        else
          let r := match env.dispatch turn i with
                   | .ok out => out
                   | .error m => "Error executing " ++ fnName ++ ": " ++ m
          execCalls env turn (i + 1) rest
            { st with responses := st.responses ++ [Part.functionResponse fnName r],
                      events := st.events ++ [Event.dispatch fnName r] }

/-- Loop-carried state of `runTask`'s `while` loop. -/
structure LoopState where
  poll : Nat
  currentInputParts : List Part
  taskCompleted : Bool
  taskSummary : String
  events : List Event

/-- Outcome of the `while` loop: it either ends (`break` or exhausted
cap), after which `runTask` returns `taskSummary || 'Task finished'`, or
an early `return msg` fires inside the loop (streaming failure). -/
inductive RunOutcome where
  | finished (st : LoopState)
  | earlyReturn (st : LoopState) (msg : String)

/-- The orchestrator `while (iterationCount < MAX_ITERATIONS)` loop.
`fuel = MAX_ITERATIONS - iterationCount` and `turn = iterationCount`. -/
def runTurns (env : Env) : Nat → Nat → LoopState → RunOutcome
  | 0, _, st => .finished st
  | fuel + 1, turn, st =>
    -- check for abort at the top of the turn
    if pollAborted env st.poll then
      .finished { st with poll := st.poll + 1,
                          events := st.events ++ [Event.emit cancelNotice] }
    else
      let st := { st with poll := st.poll + 1 }
      -- unconditional state capture; failures are non-fatal
      let cap := env.capture turn
      let snap := captureText cap
      let st := { st with events := st.events ++ [Event.capture cap] }
      -- check if cancelled after state capture
      if pollAborted env st.poll then
        .finished { st with poll := st.poll + 1,
                            events := st.events ++ [Event.emit cancelNotice] }
      else
        let st := { st with poll := st.poll + 1 }
        -- fresh snapshot first, then carried-over parts
        let payload := stateParts snap ++ st.currentInputParts
        let sb := env.stream turn
        let st := { st with events := st.events ++ [Event.modelCall payload] }
        let scan := scanChunks env sb.chunks st.poll []
        let st := { st with poll := scan.poll }
        -- a pending stream error is observed only if the consumer was not
        -- broken out of by an abort; any stream error returns `msg`
        -- (including the "empty response text" case, whose handler only
        -- logs and then falls through to the same `return`)
        match (if scan.abortedMid then none else sb.err) with
        | some m =>
          let msg := "Error calling model: " ++ m
          .earlyReturn { st with events := st.events ++ [Event.emit msg] } msg
        | none =>
          -- check if cancelled after streaming
          if pollAborted env st.poll then
            .finished { st with poll := st.poll + 1,
                                events := st.events ++ [Event.emit cancelNotice] }
          else
            let st := { st with poll := st.poll + 1 }
            let calls := scan.calls
            if calls = [] then
              -- protocol violation: corrective re-prompt becomes the
              -- whole carried-over input
              runTurns env fuel (turn + 1)
                { st with currentInputParts := [Part.text correctiveText],
                          events := st.events ++ [Event.emit stoppedWarning] }
            else
              let d := execCalls env turn 0 calls
                { poll := st.poll, responses := [],
                  taskCompleted := st.taskCompleted, taskSummary := st.taskSummary,
                  events := st.events, abortedMid := false }
              let st := { poll := d.poll, currentInputParts := d.responses,
                          taskCompleted := d.taskCompleted,
                          taskSummary := d.taskSummary, events := d.events }
              if st.taskCompleted then .finished st
              else runTurns env fuel (turn + 1) st

/-- `MAX_ITERATIONS` of the orchestrator loop. -/
def MAX_ITERATIONS : Nat := 20

/-- Result of a normally-returning `runTask`: the returned string and the
observable event trace. -/
structure RunResult where
  result : String
  events : List Event
deriving Repr, DecidableEq

/-- The initial `currentInputParts`. -/
def initialParts (prompt : String) : List Part := [Part.text ("Task: " ++ prompt)]

/-- The loop state on entering the `while` loop. -/
def initState (prompt : String) : LoopState :=
  { poll := 0, currentInputParts := initialParts prompt,
    taskCompleted := false, taskSummary := "", events := [] }

/-- `runTask(prompt, signal, printOutput)`.  `Except.error m` is an
exception escaping `runTask` to the caller (only possible from the second
`updateBorderOverlay`, which the source leaves outside the `try`);
`Except.ok` carries the returned string and the event trace. -/
def runTask (env : Env) (prompt : String) : Except String RunResult :=
  match env.connectFail with
  | some m =>
    let msg := "Error: Failed to connect to browser: " ++ m
    .ok { result := msg, events := [Event.emit msg] }
  | none =>
    match env.overlay2Fail with
    | some m => .error m
    | none =>
      match runTurns env MAX_ITERATIONS 0 (initState prompt) with
      | .finished st =>
        .ok { result := if st.taskSummary = "" then "Task finished" else st.taskSummary,
              events := st.events }
      | .earlyReturn st msg => .ok { result := msg, events := st.events }

/-! ### Visual delegate sub-loop -/

/-- A visual-tier function call (`part.functionCall`). -/
structure VCall where
  name : String
  args : List (String × String)
deriving Repr, DecidableEq

/-- A part of a single-shot model response: optional text, optional
function call (`'functionCall' in p`). -/
structure VPart where
  vtext : Option String
  functionCall : Option VCall
deriving Repr, DecidableEq

/-- Environment of the visual delegate: per-step model response
(`none` when `result.candidates?.[0]?.content` is absent), per-call tool
outcome (the JSON rendering of the result object, or a thrown message),
and the post-step screenshot. -/
structure VisualEnv where
  response : Nat → Option (List VPart)
  exec : Nat → Nat → Except String String
  screenshot : Nat → String

/-- The visual tools the sub-loop's `switch` recognises. -/
def visualKnown : List String :=
  ["click_at", "type_text_at", "drag_and_drop", "press_key", "scroll_document"]

/-- `JSON.stringify(funcResult)` for the history line: the tool's own
rendering when it returned, `{"error": message}` when it threw. -/
def renderVResult : Except String String → String
  | .ok s => s
  | .error m => "\x7b\"error\":\"" ++ m ++ "\"\x7d"

/-- Result of one visual action: the recognised tools consult the driver
(and a throw is caught into an error object); an unrecognised name yields
the `Unknown visual tool` error object. -/
def vCallResult (env : VisualEnv) (step i : Nat) (c : VCall) : String :=
  if c.name ∈ visualKnown then renderVResult (env.exec step i)
  else renderVResult (.error ("Unknown visual tool: " ++ c.name))

/-- One `actionHistory` line: `- name(k=v, ...) => result`. -/
def histEntry (c : VCall) (rendered : String) : String :=
  "- " ++ c.name ++ "(" ++
    String.intercalate ", " (c.args.map (fun kv => kv.1 ++ "=" ++ kv.2)) ++
    ") => " ++ rendered

/-- History lines appended by one step for its call list. -/
def vEntries (env : VisualEnv) (step : Nat) : Nat → List VCall → List String
  | _, [] => []
  | i, c :: rest => histEntry c (vCallResult env step i c) :: vEntries env step (i + 1) rest

/-- The summary returned when a response carries no function calls. -/
def vCompletedOutput (parts : List VPart) (hist : List String) : String :=
  let t := String.join (parts.map (fun p => p.vtext.getD ""))
  let finalText := if t = "" then "Done" else t
  "Visual Agent Completed.\nFinal Message: " ++ finalText ++
    "\nActions Taken:\n" ++ String.intercalate "\n" hist

/-- The summary returned on reaching the step cap (also reached by the
`if (!response) break` path). -/
def vMaxStepsOutput (hist : List String) : String :=
  "Visual Agent reached max steps.\nActions Taken:\n" ++ String.intercalate "\n" hist

/-- `VISUAL_MAX_STEPS` of the delegate sub-loop. -/
def VISUAL_MAX_STEPS : Nat := 5

/-- The `for (let i = 0; i < VISUAL_MAX_STEPS; i++)` loop.  The running
conversation `contents` only feeds the model, whose behaviour the
environment already fixes per step, so it is not tracked; the best-effort
cache invalidation and screenshot captures are driver writes with no
observable needed by any property. -/
def visualLoop (env : VisualEnv) : Nat → Nat → List String → String
  | 0, _, hist => vMaxStepsOutput hist
  | remaining + 1, step, hist =>
    match env.response step with
    | none => vMaxStepsOutput hist
    | some parts =>
      let calls := parts.filterMap (fun p => p.functionCall)
      if calls = [] then vCompletedOutput parts hist
      else visualLoop env remaining (step + 1) (hist ++ vEntries env step 0 calls)

/-- `runVisualDelegate` (its `{output}` field). -/
def runVisualDelegate (env : VisualEnv) : String :=
  visualLoop env VISUAL_MAX_STEPS 0 []

/-- The function calls of the model response at a visual step. -/
def vCallsAt (env : VisualEnv) (step : Nat) : List VCall :=
  ((env.response step).getD []).filterMap fun p => p.functionCall

/-- The history lines produced by one visual step. -/
def vHistAt (env : VisualEnv) (step : Nat) : List String :=
  vEntries env step 0 (vCallsAt env step)

/-- The ordered action history of `remaining` visual steps starting at
`step`. -/
def vHistRange (env : VisualEnv) : Nat → Nat → List String
  | _, 0 => []
  | step, r + 1 => vHistAt env step ++ vHistRange env (step + 1) r

/-! ### Trace projections and specification-side definitions -/

/-- The payloads of the model invocations of a trace, in order; its length
is the number of orchestrator turns that reached the model. -/
def modelPayloads (evs : List Event) : List (List Part) :=
  evs.filterMap fun e => match e with | .modelCall p => some p | _ => none

/-- The responses of the dispatched `complete_task` calls of a trace, in
order. -/
def ctResponses (evs : List Event) : List String :=
  evs.filterMap fun e =>
    match e with
    | .dispatch n r => if n = "complete_task" then some r else none
    | _ => none

/-- The names of the dispatched calls of a trace, in order. -/
def dispatchNames (evs : List Event) : List String :=
  evs.filterMap fun e => match e with | .dispatch n _ => some n | _ => none

/-- Last element of a list, or the default when empty. -/
def lastD : List String → String → String
  | [], d => d
  | x :: xs, _ => lastD xs x

/-- The trace carried by a loop outcome. -/
def eventsOf : RunOutcome → List Event
  | .finished st => st.events
  | .earlyReturn st _ => st.events

/-- No call of the list is a `complete_task` call. -/
def noCT (l : List FunctionCall) : Prop :=
  ∀ c ∈ l, c.name ≠ some "complete_task"

/-- The effective summaries of the `complete_task` calls of a list. -/
def specCTs (l : List FunctionCall) : List String :=
  l.filterMap fun c =>
    if c.name = some "complete_task" then some (effectiveSummary c.args) else none

/-- Modelled from the spec (the amended FunctionResponse pairing): each
function call carrying a usable name yields exactly one same-named
`FunctionResponse` — the handler's text, the effective completion summary
for `complete_task`, or `Error executing name: message` when the handler
throws — in emission order; a call without a usable name yields none.
`i` is the position of the head call within the turn's call list. -/
def specFunctionResponses (env : Env) (turn : Nat) : Nat → List FunctionCall → List Part
  | _, [] => []
  | i, c :: rest =>
    if nameFalsy c.name then specFunctionResponses env turn (i + 1) rest
    else
      let fnName := c.name.getD ""
      let r :=
        if fnName = "complete_task" then effectiveSummary c.args
        else
          match env.dispatch turn i with
          | .ok out => out
          | .error m => "Error executing " ++ fnName ++ ": " ++ m
      Part.functionResponse fnName r :: specFunctionResponses env turn (i + 1) rest

/-- The capture / model-call skeleton of a trace. -/
inductive CM where
  | cap (snap : String)
  | call (payload : List Part)
deriving Repr, DecidableEq

/-- Project an event onto the capture / model-call skeleton. -/
def cmOf : Event → Option CM
  | .capture r => some (CM.cap (captureText r))
  | .modelCall p => some (CM.call p)
  | _ => none

/-- The capture / model-call skeleton of a trace. -/
def cmTrace (evs : List Event) : List CM := evs.filterMap cmOf

/-- A strictly alternating capture-then-model-call skeleton. -/
def pairFlat : List (String × List Part) → List CM
  | [] => []
  | sp :: rest => CM.cap sp.1 :: CM.call sp.2 :: pairFlat rest

/-- An optional trailing capture (a turn cancelled between its capture and
its model call). -/
def capOpt : Option String → List CM
  | none => []
  | some s => [CM.cap s]

/-- Every model call's payload starts with the state parts of the capture
immediately before it: the snapshot is fresh, never cached. -/
def freshPairs (ps : List (String × List Part)) : Prop :=
  ∀ sp ∈ ps, sp.2.take (stateParts sp.1).length = stateParts sp.1

/-! ### Concrete environments for the individual claims -/

/-- A stream yielding one chunk with the given calls. -/
def oneChunk (cs : List FunctionCall) : StreamBehavior :=
  { chunks := [{ thought := none, chunkText := "", calls := cs }], err := none }

/-- The silent stream. -/
def noStream : StreamBehavior := { chunks := [], err := none }

/-- C1: turn 0's stream raises the empty-response error. -/
def envC1 : Env :=
  { connectFail := none, overlay2Fail := none,
    capture := fun _ => .ok "TREE",
    stream := fun _ =>
      { chunks := [], err := some "Model stream ended with empty response text" },
    dispatch := fun _ _ => .ok "ok",
    abortAfter := none }

/-- C2: the post-connection `updateBorderOverlay` throws. -/
def envC2 : Env :=
  { connectFail := none, overlay2Fail := some "Page closed",
    capture := fun _ => .ok "TREE",
    stream := fun _ => noStream,
    dispatch := fun _ _ => .ok "ok",
    abortAfter := none }

/-- C2 witness environment: no collaborator misbehaves. -/
def envC2w : Env :=
  { connectFail := none, overlay2Fail := none,
    capture := fun _ => .ok "TREE",
    stream := fun _ => noStream,
    dispatch := fun _ _ => .ok "ok",
    abortAfter := none }

/-- C3: turn 0 yields zero function calls; captures succeed with nonempty
snapshots; turn 1 completes so the run is short. -/
def envC3 : Env :=
  { connectFail := none, overlay2Fail := none,
    capture := fun t => .ok (if t = 0 then "T0" else "T1"),
    stream := fun t =>
      if t = 0 then noStream
      else oneChunk [{ name := some "complete_task", args := [("summary", "done")] }],
    dispatch := fun _ _ => .ok "ok",
    abortAfter := none }

/-- C3 witness environment: like `envC3` but the second capture fails, so
the corrective re-prompt is the whole payload. -/
def envC3w : Env :=
  { connectFail := none, overlay2Fail := none,
    capture := fun t => if t = 0 then .ok "T0" else .error "gone",
    stream := fun _ => noStream,
    dispatch := fun _ _ => .ok "ok",
    abortAfter := none }

/-- C4: turn 0 queues two calls; the signal is observed cancelled at the
check before the first dispatch (read number 4: top, post-capture, one
chunk, post-stream, then pre-dispatch). -/
def envC4 : Env :=
  { connectFail := none, overlay2Fail := none,
    capture := fun _ => .ok "TREE",
    stream := fun _ => oneChunk
      [{ name := some "click", args := [("uid", "1_2")] },
       { name := some "press_key", args := [("key", "Enter")] }],
    dispatch := fun _ _ => .ok "ok",
    abortAfter := some 4 }

/-- C5 witness environment: the model completes on the first turn. -/
def envC5w : Env :=
  { connectFail := none, overlay2Fail := none,
    capture := fun _ => .ok "",
    stream := fun _ => oneChunk [{ name := some "complete_task", args := [("summary", "All done")] }],
    dispatch := fun _ _ => .ok "ok",
    abortAfter := none }

/-- C6 witness environment: one tool turn, then completion. -/
def envC6w : Env :=
  { connectFail := none, overlay2Fail := none,
    capture := fun _ => .ok "TREE",
    stream := fun t =>
      if t = 0 then oneChunk [{ name := some "navigate", args := [("url", "https://example.com")] }]
      else oneChunk [{ name := some "complete_task", args := [("summary", "Done")] }],
    dispatch := fun _ _ => .ok "Navigated",
    abortAfter := none }

/-- C7 witness environment: turn 0 completes with summary `Done` while a
second call is queued after it. -/
def envC7w : Env :=
  { connectFail := none, overlay2Fail := none,
    capture := fun _ => .ok "TREE",
    stream := fun _ => oneChunk
      [{ name := some "complete_task", args := [("summary", "Done")] },
       { name := some "click", args := [("uid", "1_2")] }],
    dispatch := fun _ _ => .ok "Clicked",
    abortAfter := none }

/-- C8: turn 0 emits a single function call without a name; turn 1
completes so the run is short. -/
def envC8 : Env :=
  { connectFail := none, overlay2Fail := none,
    capture := fun _ => .ok "",
    stream := fun t =>
      if t = 0 then oneChunk [{ name := none, args := [] }]
      else oneChunk [{ name := some "complete_task", args := [("summary", "done")] }],
    dispatch := fun _ _ => .ok "ok",
    abortAfter := none }

/-- C8 witness environment: turn 0 emits two named calls, the first of
which throws during dispatch. -/
def envC8w : Env :=
  { connectFail := none, overlay2Fail := none,
    capture := fun _ => .ok "TREE",
    stream := fun _ => oneChunk
      [{ name := some "press_key", args := [("key", "Enter")] },
       { name := some "click", args := [("uid", "1_2")] }],
    dispatch := fun t i => if t = 0 && i = 0 then .error "key rejected" else .ok "Clicked",
    abortAfter := none }

/-- C9 witness environment: every visual step requests one coordinate
click, so the sub-loop reaches the step cap. -/
def venvC9w : VisualEnv :=
  { response := fun _ =>
      some [{ vtext := some "clicking",
              functionCall := some { name := "click_at", args := [("x", "10"), ("y", "20")] } }],
    exec := fun _ _ => .ok "\x7b\"output\":\"clicked\"\x7d",
    screenshot := fun _ => "IMG" }

/-- C10 witness environment: turn 0 completes with an empty summary
argument. -/
def envC10w : Env :=
  { connectFail := none, overlay2Fail := none,
    capture := fun _ => .ok "TREE",
    stream := fun _ => oneChunk [{ name := some "complete_task", args := [("summary", "")] }],
    dispatch := fun _ _ => .ok "ok",
    abortAfter := none }

/-! ### Helper lemmas -/

theorem pollAborted_none {env : Env} (h : env.abortAfter = none) (k : Nat) :
    pollAborted env k = false := by
  simp [pollAborted, h]

theorem effectiveSummary_ne_empty (args : List (String × String)) :
    effectiveSummary args ≠ "" := by
  unfold effectiveSummary
  cases args.lookup "summary" with
  | none => decide
  | some s =>
    show (if s = "" then "Task completed" else s) ≠ ""
    by_cases hs : s = ""
    · rw [if_pos hs]; decide
    · rw [if_neg hs]; exact hs

theorem modelPayloads_append (a b : List Event) :
    modelPayloads (a ++ b) = modelPayloads a ++ modelPayloads b := by
  simp [modelPayloads]

theorem ctResponses_append (a b : List Event) :
    ctResponses (a ++ b) = ctResponses a ++ ctResponses b := by
  simp [ctResponses]

theorem cmTrace_append (a b : List Event) :
    cmTrace (a ++ b) = cmTrace a ++ cmTrace b := by
  simp [cmTrace]

theorem modelPayloads_cons_emit (x : String) (tl : List Event) :
    modelPayloads (Event.emit x :: tl) = modelPayloads tl := by
  simp [modelPayloads]

theorem modelPayloads_cons_dispatch (n r : String) (tl : List Event) :
    modelPayloads (Event.dispatch n r :: tl) = modelPayloads tl := by
  simp [modelPayloads]

theorem cmTrace_cons_emit (x : String) (tl : List Event) :
    cmTrace (Event.emit x :: tl) = cmTrace tl := by
  simp [cmTrace, cmOf]

theorem cmTrace_cons_dispatch (n r : String) (tl : List Event) :
    cmTrace (Event.dispatch n r :: tl) = cmTrace tl := by
  simp [cmTrace, cmOf]

theorem ctResponses_cons_emit (x : String) (tl : List Event) :
    ctResponses (Event.emit x :: tl) = ctResponses tl := by
  simp [ctResponses]

theorem ctResponses_cons_ct (r : String) (tl : List Event) :
    ctResponses (Event.dispatch "complete_task" r :: tl) = r :: ctResponses tl := by
  simp [ctResponses]

theorem ctResponses_cons_ne {n : String} (h : ¬n = "complete_task") (r : String)
    (tl : List Event) :
    ctResponses (Event.dispatch n r :: tl) = ctResponses tl := by
  simp [ctResponses, h]

theorem scanChunks_ok (env : Env) :
    ∀ (cs : List Chunk) (p : Nat) (acc : List FunctionCall),
      (∀ j, j < cs.length → pollAborted env (p + j) = false) →
      scanChunks env cs p acc =
        { poll := p + cs.length, calls := acc ++ chunksCalls cs, abortedMid := false } := by
  intro cs
  induction cs with
  | nil => intro p acc _; simp [scanChunks, chunksCalls]
  | cons c rest ih =>
    intro p acc h
    have h0 : pollAborted env p = false := by simpa using h 0 (by simp)
    rw [scanChunks, h0]
    simp only [Bool.false_eq_true, if_false]
    rw [ih (p + 1) (acc ++ c.calls) (fun j hj => by
      have := h (j + 1) (by simpa using Nat.succ_lt_succ hj)
      simpa [Nat.add_comm, Nat.add_assoc, Nat.add_left_comm] using this)]
    simp only [ChunkScan.mk.injEq, chunksCalls, List.append_assoc, List.length_cons]
    exact ⟨by omega, trivial, trivial⟩

theorem lastD_cons (x : String) (xs : List String) (d : String) :
    lastD (x :: xs) d = lastD xs x := rfl

theorem execCalls_shape (env : Env) (t : Nat) :
    ∀ (l : List FunctionCall) (i : Nat) (st : DispatchState),
      ∃ tl, (execCalls env t i l st).events = st.events ++ tl
        ∧ modelPayloads tl = [] ∧ cmTrace tl = []
        ∧ (execCalls env t i l st).taskSummary = lastD (ctResponses tl) st.taskSummary
        ∧ (∀ s ∈ ctResponses tl, s ≠ "") := by
  intro l
  induction l with
  | nil =>
    intro i st
    exact ⟨[], by simp [execCalls], by simp [modelPayloads], by simp [cmTrace],
           by simp [execCalls, ctResponses, lastD], by simp [ctResponses]⟩
  | cons c rest ih =>
    intro i st
    rw [execCalls]
    by_cases habort : pollAborted env st.poll
    · rw [if_pos habort]
      refine ⟨[Event.emit cancelNotice], rfl, by simp [modelPayloads],
              by simp [cmTrace, cmOf], by simp [ctResponses, lastD], by simp [ctResponses]⟩
    · rw [if_neg habort]
      by_cases hfal : nameFalsy c.name
      · rw [if_pos hfal]
        obtain ⟨tl, hev, hmp, hcm, hsum, hne⟩ := ih (i + 1)
          { st with poll := st.poll + 1, events := st.events ++ [Event.emit noNameWarning] }
        refine ⟨Event.emit noNameWarning :: tl, ?_, ?_, ?_, ?_, ?_⟩
        · rw [hev]; simp
        · rw [modelPayloads_cons_emit]; exact hmp
        · rw [cmTrace_cons_emit]; exact hcm
        · rw [ctResponses_cons_emit]; exact hsum
        · intro s hs; rw [ctResponses_cons_emit] at hs; exact hne s hs
      · rw [if_neg hfal]
        by_cases hct : c.name.getD "" = "complete_task"
        · rw [if_pos hct, hct]
          obtain ⟨tl, hev, hmp, hcm, hsum, hne⟩ := ih (i + 1)
            { st with poll := st.poll + 1,
                      taskCompleted := true, taskSummary := effectiveSummary c.args,
                      responses := st.responses ++
                        [Part.functionResponse "complete_task" (effectiveSummary c.args)],
                      events := st.events ++
                        [Event.dispatch "complete_task" (effectiveSummary c.args),
                         Event.emit ("✅ " ++ effectiveSummary c.args)] }
          refine ⟨Event.dispatch "complete_task" (effectiveSummary c.args) ::
                  Event.emit ("✅ " ++ effectiveSummary c.args) :: tl, ?_, ?_, ?_, ?_, ?_⟩
          · rw [hev]; simp
          · rw [modelPayloads_cons_dispatch, modelPayloads_cons_emit]; exact hmp
          · rw [cmTrace_cons_dispatch, cmTrace_cons_emit]; exact hcm
          · rw [ctResponses_cons_ct, ctResponses_cons_emit, lastD_cons]; exact hsum
          · intro s hs
            rw [ctResponses_cons_ct, ctResponses_cons_emit] at hs
            rcases List.mem_cons.mp hs with h | h
            · rw [h]; exact effectiveSummary_ne_empty c.args
            · exact hne s h
        · rw [if_neg hct]
          obtain ⟨tl, hev, hmp, hcm, hsum, hne⟩ := ih (i + 1)
            { st with poll := st.poll + 1,
                      responses := st.responses ++
                        [Part.functionResponse (c.name.getD "")
                          (match env.dispatch t i with
                           | .ok out => out
                           | .error m => "Error executing " ++ c.name.getD "" ++ ": " ++ m)],
                      events := st.events ++
                        [Event.dispatch (c.name.getD "")
                          (match env.dispatch t i with
                           | .ok out => out
                           | .error m => "Error executing " ++ c.name.getD "" ++ ": " ++ m)] }
          refine ⟨Event.dispatch (c.name.getD "")
                    (match env.dispatch t i with
                     | .ok out => out
                     | .error m => "Error executing " ++ c.name.getD "" ++ ": " ++ m) :: tl,
                  ?_, ?_, ?_, ?_, ?_⟩
          · rw [hev]; simp
          · rw [modelPayloads_cons_dispatch]; exact hmp
          · rw [cmTrace_cons_dispatch]; exact hcm
          · rw [ctResponses_cons_ne hct]; exact hsum
          · intro s hs; rw [ctResponses_cons_ne hct] at hs; exact hne s hs

theorem specCTs_nil : specCTs [] = [] := rfl

theorem specCTs_cons_ct {c : FunctionCall} (h : c.name = some "complete_task")
    (rest : List FunctionCall) :
    specCTs (c :: rest) = effectiveSummary c.args :: specCTs rest := by
  simp [specCTs, h]

theorem specCTs_cons_ne {c : FunctionCall} (h : ¬c.name = some "complete_task")
    (rest : List FunctionCall) :
    specCTs (c :: rest) = specCTs rest := by
  simp [specCTs, h]

theorem noCT_specCTs {l : List FunctionCall} (h : noCT l) : specCTs l = [] := by
  induction l with
  | nil => rfl
  | cons c rest ih =>
    rw [specCTs_cons_ne (h c (List.mem_cons_self c rest)), ih]
    intro c' hc'
    exact h c' (List.mem_cons_of_mem c hc')

theorem name_ct_of_getD {c : FunctionCall} (hfal : ¬nameFalsy c.name = true)
    (hct : c.name.getD "" = "complete_task") : c.name = some "complete_task" := by
  cases hn : c.name with
  | none => rw [hn] at hfal; exact absurd rfl hfal
  | some s => rw [hn] at hct; simp at hct; rw [hct]

theorem name_ne_ct_of_getD {c : FunctionCall} (hct : ¬c.name.getD "" = "complete_task") :
    ¬c.name = some "complete_task" := by
  intro h
  rw [h] at hct
  exact hct rfl

theorem name_ne_ct_of_falsy {c : FunctionCall} (hfal : nameFalsy c.name = true) :
    ¬c.name = some "complete_task" := by
  intro h
  rw [h] at hfal
  simp [nameFalsy] at hfal

theorem execCalls_noabort (env : Env) (t : Nat) (hab : env.abortAfter = none) :
    ∀ (l : List FunctionCall) (i : Nat) (st : DispatchState),
      (execCalls env t i l st).responses = st.responses ++ specFunctionResponses env t i l
      ∧ (execCalls env t i l st).taskCompleted = (st.taskCompleted || !(specCTs l).isEmpty)
      ∧ (execCalls env t i l st).taskSummary = lastD (specCTs l) st.taskSummary := by
  intro l
  induction l with
  | nil =>
    intro i st
    refine ⟨by simp [execCalls, specFunctionResponses], ?_, by simp [execCalls, specCTs, lastD]⟩
    simp [execCalls, specCTs, List.isEmpty]
  | cons c rest ih =>
    intro i st
    rw [execCalls, pollAborted_none hab, if_neg (by simp)]
    by_cases hfal : nameFalsy c.name
    · rw [if_pos hfal]
      obtain ⟨hr, hc, hs⟩ := ih (i + 1)
        { st with poll := st.poll + 1, events := st.events ++ [Event.emit noNameWarning] }
      rw [specCTs_cons_ne (name_ne_ct_of_falsy hfal)]
      refine ⟨?_, hc, hs⟩
      rw [hr]
      simp [specFunctionResponses, hfal]
    · rw [if_neg hfal]
      by_cases hct : c.name.getD "" = "complete_task"
      · rw [if_pos hct]
        obtain ⟨hr, hc, hs⟩ := ih (i + 1)
          { st with poll := st.poll + 1,
                    taskCompleted := true, taskSummary := effectiveSummary c.args,
                    responses := st.responses ++
                      [Part.functionResponse (c.name.getD "") (effectiveSummary c.args)],
                    events := st.events ++
                      [Event.dispatch (c.name.getD "") (effectiveSummary c.args),
                       Event.emit ("✅ " ++ effectiveSummary c.args)] }
        rw [specCTs_cons_ct (name_ct_of_getD hfal hct)]
        refine ⟨?_, ?_, ?_⟩
        · rw [hr]
          simp [specFunctionResponses, hfal, hct]
        · rw [hc]; simp [List.isEmpty]
        · rw [hs, lastD_cons]
      · rw [if_neg hct]
        obtain ⟨hr, hc, hs⟩ := ih (i + 1)
          { st with poll := st.poll + 1,
                    responses := st.responses ++
                      [Part.functionResponse (c.name.getD "")
                        (match env.dispatch t i with
                         | .ok out => out
                         | .error m => "Error executing " ++ c.name.getD "" ++ ": " ++ m)],
                    events := st.events ++
                      [Event.dispatch (c.name.getD "")
                        (match env.dispatch t i with
                         | .ok out => out
                         | .error m => "Error executing " ++ c.name.getD "" ++ ": " ++ m)] }
        rw [specCTs_cons_ne (name_ne_ct_of_getD hct)]
        refine ⟨?_, hc, hs⟩
        rw [hr]
        simp [specFunctionResponses, hfal, hct]

/-- One unfolding of the orchestrator loop when the signal never aborts
and the turn's stream does not error. -/
theorem runTurns_succ_noabort (env : Env) (hab : env.abortAfter = none)
    (fuel turn : Nat) (st : LoopState) (herr : (env.stream turn).err = none) :
    runTurns env (fuel + 1) turn st =
      (let cap := env.capture turn
       let payload := stateParts (captureText cap) ++ st.currentInputParts
       let p1 := st.poll + 1 + 1 + (env.stream turn).chunks.length + 1
       if allCalls (env.stream turn) = [] then
         runTurns env fuel (turn + 1)
           { poll := p1,
             currentInputParts := [Part.text correctiveText],
             taskCompleted := st.taskCompleted, taskSummary := st.taskSummary,
             events := st.events ++
               [Event.capture cap, Event.modelCall payload, Event.emit stoppedWarning] }
       else
         let d := execCalls env turn 0 (allCalls (env.stream turn))
           { poll := p1, responses := [],
             taskCompleted := st.taskCompleted, taskSummary := st.taskSummary,
             events := st.events ++ [Event.capture cap, Event.modelCall payload],
             abortedMid := false }
         let st' : LoopState :=
           { poll := d.poll, currentInputParts := d.responses,
             taskCompleted := d.taskCompleted, taskSummary := d.taskSummary,
             events := d.events }
         if st'.taskCompleted then .finished st' else runTurns env fuel (turn + 1) st') := by
  rw [runTurns]
  simp only [pollAborted_none hab, Bool.false_eq_true, if_false,
    scanChunks_ok env (env.stream turn).chunks (st.poll + 1 + 1) []
      (fun j _ => pollAborted_none hab _),
    herr, List.nil_append, List.append_assoc, allCalls]
  rfl

theorem lastD_append (a b : List String) (d : String) :
    lastD (a ++ b) d = lastD b (lastD a d) := by
  induction a generalizing d with
  | nil => rfl
  | cons x xs ih => rw [List.cons_append, lastD_cons, lastD_cons, ih]

theorem lastD_mem : ∀ (l : List String), l ≠ [] → ∀ d : String, lastD l d ∈ l
  | [x], _, _ => by simp [lastD]
  | x :: y :: ys, _, d => by
    rw [lastD_cons]
    exact List.mem_cons_of_mem x (lastD_mem (y :: ys) (List.cons_ne_nil y ys) x)

theorem lastD_irrel {l : List String} (h : l ≠ []) (d d' : String) :
    lastD l d = lastD l d' := by
  cases l with
  | nil => exact absurd rfl h
  | cons x xs => rw [lastD_cons, lastD_cons]

theorem ctResponses_cons_capture (r : Except String String) (tl : List Event) :
    ctResponses (Event.capture r :: tl) = ctResponses tl := by
  simp [ctResponses]

theorem ctResponses_cons_modelCall (p : List Part) (tl : List Event) :
    ctResponses (Event.modelCall p :: tl) = ctResponses tl := by
  simp [ctResponses]

theorem modelPayloads_nil : modelPayloads [] = [] := rfl

theorem cmTrace_nil : cmTrace [] = [] := rfl

theorem ctResponses_nil : ctResponses [] = [] := rfl

theorem modelPayloads_cons_capture (r : Except String String) (tl : List Event) :
    modelPayloads (Event.capture r :: tl) = modelPayloads tl := by
  simp [modelPayloads]

theorem modelPayloads_cons_modelCall (p : List Part) (tl : List Event) :
    modelPayloads (Event.modelCall p :: tl) = p :: modelPayloads tl := by
  simp [modelPayloads]

theorem cmTrace_cons_capture (r : Except String String) (tl : List Event) :
    cmTrace (Event.capture r :: tl) = CM.cap (captureText r) :: cmTrace tl := by
  simp [cmTrace, cmOf]

theorem cmTrace_cons_modelCall (p : List Part) (tl : List Event) :
    cmTrace (Event.modelCall p :: tl) = CM.call p :: cmTrace tl := by
  simp [cmTrace, cmOf]

/-- The combined loop invariant: the loop only appends events; it performs
at most `fuel` further model calls; its capture / model-call skeleton is a
sequence of fresh capture-call pairs with at most one trailing capture;
dispatched `complete_task` responses are nonempty; and when the loop ends
normally, `taskSummary` is the response of the last dispatched
`complete_task` call (or the inherited summary when there is none). -/
theorem runTurns_main (env : Env) :
    ∀ (fuel turn : Nat) (st : LoopState),
      ∃ tl ps tr,
        eventsOf (runTurns env fuel turn st) = st.events ++ tl
        ∧ (modelPayloads tl).length ≤ fuel
        ∧ cmTrace tl = pairFlat ps ++ capOpt tr
        ∧ freshPairs ps
        ∧ (∀ s ∈ ctResponses tl, s ≠ "")
        ∧ (∀ st', runTurns env fuel turn st = .finished st' →
            st'.taskSummary = lastD (ctResponses tl) st.taskSummary) := by
  intro fuel
  induction fuel with
  | zero =>
    intro turn st
    refine ⟨[], [], none, by simp [eventsOf, runTurns], by simp [modelPayloads],
            by simp [cmTrace, pairFlat, capOpt], by simp [freshPairs],
            by simp [ctResponses], ?_⟩
    intro st' h
    rw [runTurns] at h
    cases h
    simp [lastD, ctResponses]
  | succ fuel ih =>
    intro turn st
    rw [runTurns]
    by_cases h1 : pollAborted env st.poll
    · rw [if_pos h1]
      refine ⟨[Event.emit cancelNotice], [], none, rfl, by simp [modelPayloads],
              by simp [cmTrace, cmOf, pairFlat, capOpt], by simp [freshPairs],
              by simp [ctResponses], ?_⟩
      intro st' h
      cases h
      simp [lastD, ctResponses]
    · rw [if_neg h1]
      by_cases h2 : pollAborted env (st.poll + 1)
      · rw [if_pos h2]
        refine ⟨[Event.capture (env.capture turn), Event.emit cancelNotice],
                [], some (captureText (env.capture turn)), by simp [eventsOf],
                by simp [modelPayloads],
                by simp [cmTrace, cmOf, capOpt, pairFlat], by simp [freshPairs],
                by simp [ctResponses], ?_⟩
        intro st' h
        cases h
        simp [lastD, ctResponses]
      · rw [if_neg h2]
        dsimp only
        split
        next m herr =>
          refine ⟨[Event.capture (env.capture turn),
                   Event.modelCall (stateParts (captureText (env.capture turn)) ++ st.currentInputParts),
                   Event.emit ("Error calling model: " ++ m)],
                  [(captureText (env.capture turn),
                    stateParts (captureText (env.capture turn)) ++ st.currentInputParts)],
                  none, by simp [eventsOf], by simp [modelPayloads],
                  by simp [cmTrace, cmOf, pairFlat, capOpt], ?_, by simp [ctResponses], ?_⟩
          · intro sp hsp
            rw [List.mem_singleton] at hsp
            rw [hsp]
            exact List.take_left _ _
          · intro st' h
            cases h
        next herr =>
          by_cases h3 : pollAborted env (scanChunks env (env.stream turn).chunks (st.poll + 1 + 1) []).poll
          · rw [if_pos h3]
            refine ⟨[Event.capture (env.capture turn),
                     Event.modelCall (stateParts (captureText (env.capture turn)) ++ st.currentInputParts),
                     Event.emit cancelNotice],
                    [(captureText (env.capture turn),
                      stateParts (captureText (env.capture turn)) ++ st.currentInputParts)],
                    none, by simp [eventsOf], by simp [modelPayloads],
                    by simp [cmTrace, cmOf, pairFlat, capOpt], ?_, by simp [ctResponses], ?_⟩
            · intro sp hsp
              rw [List.mem_singleton] at hsp
              rw [hsp]
              exact List.take_left _ _
            · intro st' h
              cases h
              simp [lastD, ctResponses]
          · rw [if_neg h3]
            by_cases hc : (scanChunks env (env.stream turn).chunks (st.poll + 1 + 1) []).calls = []
            · rw [if_pos hc]
              obtain ⟨tl', ps', tr', hev, hlen, hcm, hfresh, hne, hfin⟩ := ih (turn + 1)
                { poll := (scanChunks env (env.stream turn).chunks (st.poll + 1 + 1) []).poll + 1,
                  currentInputParts := [Part.text correctiveText],
                  taskCompleted := st.taskCompleted, taskSummary := st.taskSummary,
                  events := (st.events ++
                      [Event.capture (env.capture turn)] ++
                      [Event.modelCall (stateParts (captureText (env.capture turn)) ++ st.currentInputParts)]) ++
                    [Event.emit stoppedWarning] }
              refine ⟨[Event.capture (env.capture turn),
                       Event.modelCall (stateParts (captureText (env.capture turn)) ++ st.currentInputParts),
                       Event.emit stoppedWarning] ++ tl',
                      (captureText (env.capture turn),
                       stateParts (captureText (env.capture turn)) ++ st.currentInputParts) :: ps',
                      tr', ?_, ?_, ?_, ?_, ?_, ?_⟩
              · rw [hev]; simp
              · rw [modelPayloads_append, modelPayloads_cons_capture, modelPayloads_cons_modelCall,
                    modelPayloads_cons_emit, modelPayloads_nil]
                simp only [List.length_append, List.length_cons, List.length_nil]
                omega
              · rw [cmTrace_append, cmTrace_cons_capture, cmTrace_cons_modelCall, cmTrace_cons_emit,
                    cmTrace_nil, hcm]
                simp [pairFlat]
              · intro sp hsp
                rcases List.mem_cons.mp hsp with h | h
                · rw [h]; exact List.take_left _ _
                · exact hfresh sp h
              · intro s hs
                rw [ctResponses_append, ctResponses_cons_capture, ctResponses_cons_modelCall,
                    ctResponses_cons_emit, ctResponses_nil] at hs
                exact hne s hs
              · intro st' h
                have := hfin st' h
                rw [this]
                rw [ctResponses_append, ctResponses_cons_capture, ctResponses_cons_modelCall,
                    ctResponses_cons_emit, ctResponses_nil]
                simp only [List.nil_append]
            · rw [if_neg hc]
              obtain ⟨tlE, hevE, hmpE, hcmE, hsumE, hneE⟩ :=
                execCalls_shape env turn
                  ((scanChunks env (env.stream turn).chunks (st.poll + 1 + 1) []).calls) 0
                  { poll := (scanChunks env (env.stream turn).chunks (st.poll + 1 + 1) []).poll + 1,
                    responses := [],
                    taskCompleted := st.taskCompleted, taskSummary := st.taskSummary,
                    events := st.events ++
                      [Event.capture (env.capture turn)] ++
                      [Event.modelCall (stateParts (captureText (env.capture turn)) ++ st.currentInputParts)],
                    abortedMid := false }
              by_cases hcT : (execCalls env turn 0
                  ((scanChunks env (env.stream turn).chunks (st.poll + 1 + 1) []).calls)
                  { poll := (scanChunks env (env.stream turn).chunks (st.poll + 1 + 1) []).poll + 1,
                    responses := [],
                    taskCompleted := st.taskCompleted, taskSummary := st.taskSummary,
                    events := st.events ++
                      [Event.capture (env.capture turn)] ++
                      [Event.modelCall (stateParts (captureText (env.capture turn)) ++ st.currentInputParts)],
                    abortedMid := false }).taskCompleted
              · rw [if_pos hcT]
                refine ⟨[Event.capture (env.capture turn),
                         Event.modelCall (stateParts (captureText (env.capture turn)) ++ st.currentInputParts)] ++ tlE,
                        [(captureText (env.capture turn),
                          stateParts (captureText (env.capture turn)) ++ st.currentInputParts)],
                        none, ?_, ?_, ?_, ?_, ?_, ?_⟩
                · simp only [eventsOf]
                  rw [hevE]
                  simp
                · rw [modelPayloads_append, modelPayloads_cons_capture, modelPayloads_cons_modelCall,
                      modelPayloads_nil, hmpE]
                  simp
                · rw [cmTrace_append, cmTrace_cons_capture, cmTrace_cons_modelCall, cmTrace_nil, hcmE]
                  simp [pairFlat, capOpt]
                · intro sp hsp
                  rw [List.mem_singleton] at hsp
                  rw [hsp]
                  exact List.take_left _ _
                · intro s hs
                  rw [ctResponses_append, ctResponses_cons_capture, ctResponses_cons_modelCall,
                      ctResponses_nil] at hs
                  exact hneE s hs
                · intro st' h
                  cases h
                  rw [ctResponses_append, ctResponses_cons_capture, ctResponses_cons_modelCall,
                      ctResponses_nil]
                  exact hsumE
              · rw [if_neg hcT]
                obtain ⟨tl', ps', tr', hev, hlen, hcm, hfresh, hne, hfin⟩ := ih (turn + 1) _
                refine ⟨([Event.capture (env.capture turn),
                         Event.modelCall (stateParts (captureText (env.capture turn)) ++ st.currentInputParts)] ++ tlE) ++ tl',
                        (captureText (env.capture turn),
                         stateParts (captureText (env.capture turn)) ++ st.currentInputParts) :: ps',
                        tr', ?_, ?_, ?_, ?_, ?_, ?_⟩
                · rw [hev]
                  show DispatchState.events _ ++ tl' = _
                  rw [hevE]
                  simp
                · rw [modelPayloads_append, modelPayloads_append, modelPayloads_cons_capture,
                      modelPayloads_cons_modelCall, modelPayloads_nil, hmpE]
                  simp only [List.length_append, List.length_cons, List.length_nil]
                  omega
                · rw [cmTrace_append, cmTrace_append, cmTrace_cons_capture, cmTrace_cons_modelCall,
                      cmTrace_nil, hcmE, hcm]
                  simp [pairFlat]
                · intro sp hsp
                  rcases List.mem_cons.mp hsp with h | h
                  · rw [h]; exact List.take_left _ _
                  · exact hfresh sp h
                · intro s hs
                  rw [ctResponses_append, ctResponses_append, ctResponses_cons_capture,
                      ctResponses_cons_modelCall, ctResponses_nil] at hs
                  simp only [List.nil_append] at hs
                  rcases List.mem_append.mp hs with h | h
                  · exact hneE s h
                  · exact hne s h
                · intro st' h
                  have := hfin st' h
                  rw [this]
                  rw [ctResponses_append, ctResponses_append, ctResponses_cons_capture,
                      ctResponses_cons_modelCall, ctResponses_nil]
                  simp only [List.nil_append]
                  rw [lastD_append]
                  congr 1

/-- With error-free streams the loop never takes the early-`return`
path: it always ends by `break` or cap exhaustion. -/
theorem runTurns_finishes (env : Env) (herr : ∀ t, (env.stream t).err = none) :
    ∀ (fuel turn : Nat) (st : LoopState),
      ∃ st', runTurns env fuel turn st = .finished st' := by
  intro fuel
  induction fuel with
  | zero => intro turn st; exact ⟨st, rfl⟩
  | succ fuel ih =>
    intro turn st
    rw [runTurns]
    by_cases h1 : pollAborted env st.poll
    · rw [if_pos h1]; exact ⟨_, rfl⟩
    · rw [if_neg h1]
      by_cases h2 : pollAborted env (st.poll + 1)
      · rw [if_pos h2]; exact ⟨_, rfl⟩
      · rw [if_neg h2]
        dsimp only
        split
        next m hm =>
          exfalso
          rw [herr turn, ite_self] at hm
          exact Option.noConfusion hm
        next hm =>
          by_cases h3 : pollAborted env (scanChunks env (env.stream turn).chunks (st.poll + 1 + 1) []).poll
          · rw [if_pos h3]; exact ⟨_, rfl⟩
          · rw [if_neg h3]
            by_cases hc : (scanChunks env (env.stream turn).chunks (st.poll + 1 + 1) []).calls = []
            · rw [if_pos hc]; exact ih (turn + 1) _
            · rw [if_neg hc]
              by_cases hcT : (execCalls env turn 0
                  ((scanChunks env (env.stream turn).chunks (st.poll + 1 + 1) []).calls)
                  { poll := (scanChunks env (env.stream turn).chunks (st.poll + 1 + 1) []).poll + 1,
                    responses := [],
                    taskCompleted := st.taskCompleted, taskSummary := st.taskSummary,
                    events := st.events ++
                      [Event.capture (env.capture turn)] ++
                      [Event.modelCall (stateParts (captureText (env.capture turn)) ++ st.currentInputParts)],
                    abortedMid := false }).taskCompleted
              · rw [if_pos hcT]; exact ⟨_, rfl⟩
              · rw [if_neg hcT]; exact ih (turn + 1) _

/-- Chaining lemma: `k` consecutive turns whose streams neither error nor
contain a `complete_task` call leave the loop running, with exactly one
model call recorded per turn and `taskCompleted` still unset. -/
theorem runTurns_reach (env : Env) (hab : env.abortAfter = none) :
    ∀ (k f turn : Nat) (st : LoopState),
      (∀ i, i < k → (env.stream (turn + i)).err = none ∧ noCT (allCalls (env.stream (turn + i)))) →
      st.taskCompleted = false →
      ∃ st', runTurns env (k + f) turn st = runTurns env f (turn + k) st'
        ∧ st'.taskCompleted = false
        ∧ st'.taskSummary = st.taskSummary
        ∧ ∃ tl, st'.events = st.events ++ tl ∧ (modelPayloads tl).length = k := by
  intro k
  induction k with
  | zero =>
    intro f turn st _ hcomp
    exact ⟨st, by rw [Nat.zero_add, Nat.add_zero], hcomp, rfl, [], by simp, rfl⟩
  | succ k ihk =>
    intro f turn st h hcomp
    have herr0 : (env.stream turn).err = none := by simpa using (h 0 (Nat.succ_pos k)).1
    have hnoct0 : noCT (allCalls (env.stream turn)) := by simpa using (h 0 (Nat.succ_pos k)).2
    have hshift : ∀ i, i < k →
        (env.stream (turn + 1 + i)).err = none ∧ noCT (allCalls (env.stream (turn + 1 + i))) := by
      intro i hi
      have := h (i + 1) (by omega)
      have harith : turn + (i + 1) = turn + 1 + i := by omega
      rw [harith] at this
      exact this
    have hkf : k + 1 + f = (k + f) + 1 := by omega
    rw [hkf, runTurns_succ_noabort env hab (k + f) turn st herr0]
    dsimp only
    by_cases hc : allCalls (env.stream turn) = []
    · rw [if_pos hc]
      obtain ⟨st', heq, hcomp', hsum', tl', hev', hlen'⟩ := ihk f (turn + 1)
        { poll := st.poll + 1 + 1 + (env.stream turn).chunks.length + 1,
          currentInputParts := [Part.text correctiveText],
          taskCompleted := st.taskCompleted, taskSummary := st.taskSummary,
          events := st.events ++
            [Event.capture (env.capture turn),
             Event.modelCall (stateParts (captureText (env.capture turn)) ++ st.currentInputParts),
             Event.emit stoppedWarning] } hshift hcomp
      have harith : turn + 1 + k = turn + (k + 1) := by omega
      rw [harith] at heq
      refine ⟨st', heq, hcomp', hsum', ?_⟩
      refine ⟨[Event.capture (env.capture turn),
               Event.modelCall (stateParts (captureText (env.capture turn)) ++ st.currentInputParts),
               Event.emit stoppedWarning] ++ tl', ?_, ?_⟩
      · rw [hev']; simp
      · rw [modelPayloads_append, modelPayloads_cons_capture, modelPayloads_cons_modelCall,
            modelPayloads_cons_emit, modelPayloads_nil, List.length_append]
        simp only [List.length_cons, List.length_nil]
        omega
    · rw [if_neg hc]
      obtain ⟨hre, hco, hsu⟩ := execCalls_noabort env turn hab (allCalls (env.stream turn)) 0
        { poll := st.poll + 1 + 1 + (env.stream turn).chunks.length + 1, responses := [],
          taskCompleted := st.taskCompleted, taskSummary := st.taskSummary,
          events := st.events ++
            [Event.capture (env.capture turn),
             Event.modelCall (stateParts (captureText (env.capture turn)) ++ st.currentInputParts)],
          abortedMid := false }
      obtain ⟨tlE, hevE, hmpE, _, _, _⟩ := execCalls_shape env turn
        (allCalls (env.stream turn)) 0
        { poll := st.poll + 1 + 1 + (env.stream turn).chunks.length + 1, responses := [],
          taskCompleted := st.taskCompleted, taskSummary := st.taskSummary,
          events := st.events ++
            [Event.capture (env.capture turn),
             Event.modelCall (stateParts (captureText (env.capture turn)) ++ st.currentInputParts)],
          abortedMid := false }
      have hctnil : specCTs (allCalls (env.stream turn)) = [] := noCT_specCTs hnoct0
      have hcompd : (execCalls env turn 0 (allCalls (env.stream turn))
          { poll := st.poll + 1 + 1 + (env.stream turn).chunks.length + 1, responses := [],
            taskCompleted := st.taskCompleted, taskSummary := st.taskSummary,
            events := st.events ++
              [Event.capture (env.capture turn),
               Event.modelCall (stateParts (captureText (env.capture turn)) ++ st.currentInputParts)],
            abortedMid := false }).taskCompleted = false := by
        rw [hco, hctnil, hcomp]
        rfl
      rw [if_neg (by rw [hcompd]; exact Bool.false_ne_true)]
      obtain ⟨st', heq, hcomp', hsum', tl', hev', hlen'⟩ := ihk f (turn + 1)
        { poll := (execCalls env turn 0 (allCalls (env.stream turn))
            { poll := st.poll + 1 + 1 + (env.stream turn).chunks.length + 1, responses := [],
              taskCompleted := st.taskCompleted, taskSummary := st.taskSummary,
              events := st.events ++
                [Event.capture (env.capture turn),
                 Event.modelCall (stateParts (captureText (env.capture turn)) ++ st.currentInputParts)],
              abortedMid := false }).poll,
          currentInputParts := (execCalls env turn 0 (allCalls (env.stream turn))
            { poll := st.poll + 1 + 1 + (env.stream turn).chunks.length + 1, responses := [],
              taskCompleted := st.taskCompleted, taskSummary := st.taskSummary,
              events := st.events ++
                [Event.capture (env.capture turn),
                 Event.modelCall (stateParts (captureText (env.capture turn)) ++ st.currentInputParts)],
              abortedMid := false }).responses,
          taskCompleted := (execCalls env turn 0 (allCalls (env.stream turn))
            { poll := st.poll + 1 + 1 + (env.stream turn).chunks.length + 1, responses := [],
              taskCompleted := st.taskCompleted, taskSummary := st.taskSummary,
              events := st.events ++
                [Event.capture (env.capture turn),
                 Event.modelCall (stateParts (captureText (env.capture turn)) ++ st.currentInputParts)],
              abortedMid := false }).taskCompleted,
          taskSummary := (execCalls env turn 0 (allCalls (env.stream turn))
            { poll := st.poll + 1 + 1 + (env.stream turn).chunks.length + 1, responses := [],
              taskCompleted := st.taskCompleted, taskSummary := st.taskSummary,
              events := st.events ++
                [Event.capture (env.capture turn),
                 Event.modelCall (stateParts (captureText (env.capture turn)) ++ st.currentInputParts)],
              abortedMid := false }).taskSummary,
          events := (execCalls env turn 0 (allCalls (env.stream turn))
            { poll := st.poll + 1 + 1 + (env.stream turn).chunks.length + 1, responses := [],
              taskCompleted := st.taskCompleted, taskSummary := st.taskSummary,
              events := st.events ++
                [Event.capture (env.capture turn),
                 Event.modelCall (stateParts (captureText (env.capture turn)) ++ st.currentInputParts)],
              abortedMid := false }).events } hshift hcompd
      have harith : turn + 1 + k = turn + (k + 1) := by omega
      rw [harith] at heq
      refine ⟨st', heq, hcomp', ?_, ?_⟩
      · rw [hsum', hsu, hctnil]
        rfl
      · refine ⟨([Event.capture (env.capture turn),
                  Event.modelCall (stateParts (captureText (env.capture turn)) ++ st.currentInputParts)] ++ tlE) ++ tl', ?_, ?_⟩
        · rw [hev']
          show DispatchState.events _ ++ tl' = _
          rw [hevE]
          simp
        · rw [modelPayloads_append, modelPayloads_append, modelPayloads_cons_capture,
              modelPayloads_cons_modelCall, modelPayloads_nil, hmpE]
          simp only [List.length_append, List.length_cons, List.length_nil]
          omega

theorem specCTs_append (a b : List FunctionCall) :
    specCTs (a ++ b) = specCTs a ++ specCTs b := by
  simp [specCTs]

theorem mem_of_ctResponses {s : String} {tl : List Event} (h : s ∈ ctResponses tl) :
    Event.dispatch "complete_task" s ∈ tl := by
  rw [ctResponses, List.mem_filterMap] at h
  obtain ⟨e, he, hmatch⟩ := h
  cases e with
  | dispatch n r =>
    by_cases hn : n = "complete_task"
    · rw [hn] at he hmatch
      have hrs : r = s := by simpa using hmatch
      rw [hrs] at he
      exact he
    · simp [hn] at hmatch
  | capture r => simp at hmatch
  | modelCall p => simp at hmatch
  | emit l => simp at hmatch

/-- Under a never-aborting signal, the `complete_task` responses dispatched
by the tool loop are exactly the effective summaries of the queued
`complete_task` calls, in order. -/
theorem execCalls_ctResponses (env : Env) (t : Nat) (hab : env.abortAfter = none) :
    ∀ (l : List FunctionCall) (i : Nat) (st : DispatchState),
      ∃ tl, (execCalls env t i l st).events = st.events ++ tl
        ∧ ctResponses tl = specCTs l := by
  intro l
  induction l with
  | nil => intro i st; exact ⟨[], by simp [execCalls], by simp [ctResponses, specCTs]⟩
  | cons c rest ih =>
    intro i st
    rw [execCalls, pollAborted_none hab, if_neg (by simp)]
    by_cases hfal : nameFalsy c.name
    · rw [if_pos hfal]
      obtain ⟨tl, hev, hct⟩ := ih (i + 1)
        { st with poll := st.poll + 1, events := st.events ++ [Event.emit noNameWarning] }
      refine ⟨Event.emit noNameWarning :: tl, by rw [hev]; simp, ?_⟩
      rw [ctResponses_cons_emit, hct, specCTs_cons_ne (name_ne_ct_of_falsy hfal)]
    · rw [if_neg hfal]
      by_cases hct : c.name.getD "" = "complete_task"
      · rw [if_pos hct, hct]
        obtain ⟨tl, hev, hctr⟩ := ih (i + 1)
          { st with poll := st.poll + 1,
                    taskCompleted := true, taskSummary := effectiveSummary c.args,
                    responses := st.responses ++
                      [Part.functionResponse "complete_task" (effectiveSummary c.args)],
                    events := st.events ++
                      [Event.dispatch "complete_task" (effectiveSummary c.args),
                       Event.emit ("✅ " ++ effectiveSummary c.args)] }
        refine ⟨Event.dispatch "complete_task" (effectiveSummary c.args) ::
                Event.emit ("✅ " ++ effectiveSummary c.args) :: tl, by rw [hev]; simp, ?_⟩
        rw [ctResponses_cons_ct, ctResponses_cons_emit, hctr,
            specCTs_cons_ct (name_ct_of_getD hfal hct)]
      · rw [if_neg hct]
        obtain ⟨tl, hev, hctr⟩ := ih (i + 1)
          { st with poll := st.poll + 1,
                    responses := st.responses ++
                      [Part.functionResponse (c.name.getD "")
                        (match env.dispatch t i with
                         | .ok out => out
                         | .error m => "Error executing " ++ c.name.getD "" ++ ": " ++ m)],
                    events := st.events ++
                      [Event.dispatch (c.name.getD "")
                        (match env.dispatch t i with
                         | .ok out => out
                         | .error m => "Error executing " ++ c.name.getD "" ++ ": " ++ m)] }
        refine ⟨Event.dispatch (c.name.getD "")
                  (match env.dispatch t i with
                   | .ok out => out
                   | .error m => "Error executing " ++ c.name.getD "" ++ ": " ++ m) :: tl,
                by rw [hev]; simp, ?_⟩
        rw [ctResponses_cons_ne hct, hctr, specCTs_cons_ne (name_ne_ct_of_getD hct)]

/-- A turn whose queued calls contain exactly one `complete_task` call
finishes the loop: the summary becomes that call's effective summary, the
matching dispatch is recorded, and no further model call happens. -/
theorem runTurns_ct_turn (env : Env) (hab : env.abortAfter = none)
    (fuel turn : Nat) (st : LoopState)
    (herr : (env.stream turn).err = none)
    (l1 l2 : List FunctionCall) (ct : FunctionCall)
    (hsplit : allCalls (env.stream turn) = l1 ++ ct :: l2)
    (hctn : ct.name = some "complete_task")
    (hno1 : noCT l1) (hno2 : noCT l2)
    (hcomp : st.taskCompleted = false) :
    ∃ st', runTurns env (fuel + 1) turn st = .finished st'
      ∧ st'.taskSummary = effectiveSummary ct.args
      ∧ ∃ tl, st'.events = st.events ++ tl
        ∧ (modelPayloads tl).length = 1
        ∧ Event.dispatch "complete_task" (effectiveSummary ct.args) ∈ tl := by
  have hspec : specCTs (allCalls (env.stream turn)) = [effectiveSummary ct.args] := by
    rw [hsplit, specCTs_append, specCTs_cons_ct hctn, noCT_specCTs hno1, noCT_specCTs hno2]
    rfl
  rw [runTurns_succ_noabort env hab fuel turn st herr]
  dsimp only
  rw [if_neg (by rw [hsplit]; exact List.append_ne_nil_of_right_ne_nil l1 (List.cons_ne_nil ct l2))]
  obtain ⟨hre, hco, hsu⟩ := execCalls_noabort env turn hab (allCalls (env.stream turn)) 0
    { poll := st.poll + 1 + 1 + (env.stream turn).chunks.length + 1, responses := [],
      taskCompleted := st.taskCompleted, taskSummary := st.taskSummary,
      events := st.events ++
        [Event.capture (env.capture turn),
         Event.modelCall (stateParts (captureText (env.capture turn)) ++ st.currentInputParts)],
      abortedMid := false }
  obtain ⟨tlE, hevE, hctE⟩ := execCalls_ctResponses env turn hab (allCalls (env.stream turn)) 0
    { poll := st.poll + 1 + 1 + (env.stream turn).chunks.length + 1, responses := [],
      taskCompleted := st.taskCompleted, taskSummary := st.taskSummary,
      events := st.events ++
        [Event.capture (env.capture turn),
         Event.modelCall (stateParts (captureText (env.capture turn)) ++ st.currentInputParts)],
      abortedMid := false }
  obtain ⟨tlS, hevS, hmpS, _, _, _⟩ := execCalls_shape env turn (allCalls (env.stream turn)) 0
    { poll := st.poll + 1 + 1 + (env.stream turn).chunks.length + 1, responses := [],
      taskCompleted := st.taskCompleted, taskSummary := st.taskSummary,
      events := st.events ++
        [Event.capture (env.capture turn),
         Event.modelCall (stateParts (captureText (env.capture turn)) ++ st.currentInputParts)],
      abortedMid := false }
  have htlSE : tlS = tlE := by
    have := hevS.symm.trans hevE
    exact List.append_cancel_left this
  have hcompd : (execCalls env turn 0 (allCalls (env.stream turn))
      { poll := st.poll + 1 + 1 + (env.stream turn).chunks.length + 1, responses := [],
        taskCompleted := st.taskCompleted, taskSummary := st.taskSummary,
        events := st.events ++
          [Event.capture (env.capture turn),
           Event.modelCall (stateParts (captureText (env.capture turn)) ++ st.currentInputParts)],
        abortedMid := false }).taskCompleted = true := by
    rw [hco, hspec, hcomp]
    rfl
  rw [if_pos hcompd]
  refine ⟨_, rfl, ?_, ?_⟩
  · show DispatchState.taskSummary _ = _
    rw [hsu, hspec]
    rfl
  · refine ⟨[Event.capture (env.capture turn),
             Event.modelCall (stateParts (captureText (env.capture turn)) ++ st.currentInputParts)] ++ tlE,
            ?_, ?_, ?_⟩
    · show DispatchState.events _ = _
      rw [hevE]
      simp
    · have hmpE2 : modelPayloads tlE = [] := by rw [← htlSE]; exact hmpS
      rw [modelPayloads_append, modelPayloads_cons_capture, modelPayloads_cons_modelCall,
          modelPayloads_nil, hmpE2]
      rfl
    · refine List.mem_append_right _ (mem_of_ctResponses ?_)
      rw [hctE, hspec]
      exact List.mem_singleton_self _

theorem pollAborted_some {env : Env} {n : Nat} (h : env.abortAfter = some n) (k : Nat) :
    pollAborted env k = decide (n ≤ k) := by
  simp [pollAborted, h]

/-- Once the threshold is passed, the loop stops at the next top-of-turn
check (or immediately at cap exhaustion) without any further event beyond
the cancellation notice. -/
theorem runTurns_aborted (env : Env) {n : Nat} (habs : env.abortAfter = some n)
    (fuel turn : Nat) (st : LoopState) (h : n ≤ st.poll) :
    runTurns env fuel turn st = .finished st ∨
    runTurns env fuel turn st =
      .finished { st with poll := st.poll + 1, events := st.events ++ [Event.emit cancelNotice] } := by
  cases fuel with
  | zero => exact Or.inl rfl
  | succ fuel =>
    right
    rw [runTurns, if_pos (by rw [pollAborted_some habs]; exact decide_eq_true h)]

/-- The first model call of a no-abort run starting at `turn` carries the
fresh snapshot followed by the carried-over input parts. -/
theorem runTurns_first_payload (env : Env) (hab : env.abortAfter = none)
    (f turn : Nat) (st : LoopState) (herr : (env.stream turn).err = none) :
    ∃ tl, eventsOf (runTurns env (f + 1) turn st) = st.events ++ tl
      ∧ (modelPayloads tl).get? 0 =
          some (stateParts (captureText (env.capture turn)) ++ st.currentInputParts) := by
  rw [runTurns_succ_noabort env hab f turn st herr]
  dsimp only
  by_cases hc : allCalls (env.stream turn) = []
  · rw [if_pos hc]
    obtain ⟨tl3, _, _, hev3, _, _, _, _, _⟩ := runTurns_main env f (turn + 1)
      { poll := st.poll + 1 + 1 + (env.stream turn).chunks.length + 1,
        currentInputParts := [Part.text correctiveText],
        taskCompleted := st.taskCompleted, taskSummary := st.taskSummary,
        events := st.events ++
          [Event.capture (env.capture turn),
           Event.modelCall (stateParts (captureText (env.capture turn)) ++ st.currentInputParts),
           Event.emit stoppedWarning] }
    refine ⟨[Event.capture (env.capture turn),
             Event.modelCall (stateParts (captureText (env.capture turn)) ++ st.currentInputParts),
             Event.emit stoppedWarning] ++ tl3, ?_, ?_⟩
    · rw [hev3]; simp
    · rw [modelPayloads_append, modelPayloads_cons_capture, modelPayloads_cons_modelCall,
          modelPayloads_cons_emit, modelPayloads_nil]
      rfl
  · rw [if_neg hc]
    obtain ⟨tlE, hevE, hmpE, _, _, _⟩ := execCalls_shape env turn (allCalls (env.stream turn)) 0
      { poll := st.poll + 1 + 1 + (env.stream turn).chunks.length + 1, responses := [],
        taskCompleted := st.taskCompleted, taskSummary := st.taskSummary,
        events := st.events ++
          [Event.capture (env.capture turn),
           Event.modelCall (stateParts (captureText (env.capture turn)) ++ st.currentInputParts)],
        abortedMid := false }
    by_cases hcT : (execCalls env turn 0 (allCalls (env.stream turn))
        { poll := st.poll + 1 + 1 + (env.stream turn).chunks.length + 1, responses := [],
          taskCompleted := st.taskCompleted, taskSummary := st.taskSummary,
          events := st.events ++
            [Event.capture (env.capture turn),
             Event.modelCall (stateParts (captureText (env.capture turn)) ++ st.currentInputParts)],
          abortedMid := false }).taskCompleted
    · rw [if_pos hcT]
      refine ⟨[Event.capture (env.capture turn),
               Event.modelCall (stateParts (captureText (env.capture turn)) ++ st.currentInputParts)] ++ tlE,
              ?_, ?_⟩
      · show DispatchState.events _ = _
        rw [hevE]; simp
      · rw [modelPayloads_append, modelPayloads_cons_capture, modelPayloads_cons_modelCall,
            modelPayloads_nil, hmpE]
        rfl
    · rw [if_neg hcT]
      obtain ⟨tl3, _, _, hev3, _, _, _, _, _⟩ := runTurns_main env f (turn + 1)
        { poll := (execCalls env turn 0 (allCalls (env.stream turn))
            { poll := st.poll + 1 + 1 + (env.stream turn).chunks.length + 1, responses := [],
              taskCompleted := st.taskCompleted, taskSummary := st.taskSummary,
              events := st.events ++
                [Event.capture (env.capture turn),
                 Event.modelCall (stateParts (captureText (env.capture turn)) ++ st.currentInputParts)],
              abortedMid := false }).poll,
          currentInputParts := (execCalls env turn 0 (allCalls (env.stream turn))
            { poll := st.poll + 1 + 1 + (env.stream turn).chunks.length + 1, responses := [],
              taskCompleted := st.taskCompleted, taskSummary := st.taskSummary,
              events := st.events ++
                [Event.capture (env.capture turn),
                 Event.modelCall (stateParts (captureText (env.capture turn)) ++ st.currentInputParts)],
              abortedMid := false }).responses,
          taskCompleted := (execCalls env turn 0 (allCalls (env.stream turn))
            { poll := st.poll + 1 + 1 + (env.stream turn).chunks.length + 1, responses := [],
              taskCompleted := st.taskCompleted, taskSummary := st.taskSummary,
              events := st.events ++
                [Event.capture (env.capture turn),
                 Event.modelCall (stateParts (captureText (env.capture turn)) ++ st.currentInputParts)],
              abortedMid := false }).taskCompleted,
          taskSummary := (execCalls env turn 0 (allCalls (env.stream turn))
            { poll := st.poll + 1 + 1 + (env.stream turn).chunks.length + 1, responses := [],
              taskCompleted := st.taskCompleted, taskSummary := st.taskSummary,
              events := st.events ++
                [Event.capture (env.capture turn),
                 Event.modelCall (stateParts (captureText (env.capture turn)) ++ st.currentInputParts)],
              abortedMid := false }).taskSummary,
          events := (execCalls env turn 0 (allCalls (env.stream turn))
            { poll := st.poll + 1 + 1 + (env.stream turn).chunks.length + 1, responses := [],
              taskCompleted := st.taskCompleted, taskSummary := st.taskSummary,
              events := st.events ++
                [Event.capture (env.capture turn),
                 Event.modelCall (stateParts (captureText (env.capture turn)) ++ st.currentInputParts)],
              abortedMid := false }).events }
      refine ⟨([Event.capture (env.capture turn),
               Event.modelCall (stateParts (captureText (env.capture turn)) ++ st.currentInputParts)] ++ tlE) ++ tl3,
              ?_, ?_⟩
      · rw [hev3]
        show DispatchState.events _ ++ tl3 = _
        rw [hevE]; simp
      · rw [modelPayloads_append, modelPayloads_append, modelPayloads_cons_capture,
            modelPayloads_cons_modelCall, modelPayloads_nil, hmpE]
        rfl

/-- Full-run lemma: reaching turn `t` through non-completing turns and
then dispatching a lone `complete_task` call returns its effective
summary, having performed exactly `t + 1` model calls. -/
theorem runTask_ct (env : Env) (prompt : String) (t : Nat)
    (hconn : env.connectFail = none) (hov : env.overlay2Fail = none)
    (hab : env.abortAfter = none)
    (ht : t < MAX_ITERATIONS)
    (hpre : ∀ i, i < t → (env.stream i).err = none ∧ noCT (allCalls (env.stream i)))
    (herr : (env.stream t).err = none)
    (l1 l2 : List FunctionCall) (ct : FunctionCall)
    (hsplit : allCalls (env.stream t) = l1 ++ ct :: l2)
    (hctn : ct.name = some "complete_task")
    (hno1 : noCT l1) (hno2 : noCT l2) :
    ∃ r, runTask env prompt = .ok r
      ∧ r.result = effectiveSummary ct.args
      ∧ (modelPayloads r.events).length = t + 1
      ∧ Event.dispatch "complete_task" (effectiveSummary ct.args) ∈ r.events := by
  obtain ⟨st', heq, hcomp', _, tl1, hev1, hlen1⟩ :=
    runTurns_reach env hab t (MAX_ITERATIONS - t) 0 (initState prompt)
      (fun i hi => by simpa using hpre i hi) rfl
  have h20 : MAX_ITERATIONS = t + (MAX_ITERATIONS - t) := by omega
  have hsub : MAX_ITERATIONS - t = (MAX_ITERATIONS - t - 1) + 1 := by omega
  obtain ⟨st'', hfin2, hsum2, tl2, hev2, hlen2, hmem2⟩ :=
    runTurns_ct_turn env hab (MAX_ITERATIONS - t - 1) t st' herr l1 l2 ct hsplit hctn hno1 hno2 hcomp'
  rw [hsub, Nat.zero_add] at heq
  rw [hfin2] at heq
  have hrun : runTurns env MAX_ITERATIONS 0 (initState prompt) = .finished st'' := by
    rw [h20, hsub]
    exact heq
  refine ⟨{ result := st''.taskSummary, events := st''.events }, ?_, hsum2, ?_, ?_⟩
  · rw [runTask, hconn, hov]
    dsimp only
    rw [hrun]
    dsimp only
    rw [if_neg (by rw [hsum2]; exact effectiveSummary_ne_empty ct.args)]
  · show (modelPayloads st''.events).length = t + 1
    rw [hev2, hev1]
    rw [modelPayloads_append, modelPayloads_append]
    simp only [List.length_append]
    have : modelPayloads (initState prompt).events = [] := rfl
    rw [show (initState prompt).events = [] from rfl]
    simp only [modelPayloads_nil, List.length_nil, List.nil_append, List.length_append]
    omega
  · show Event.dispatch "complete_task" (effectiveSummary ct.args) ∈ st''.events
    rw [hev2]
    exact List.mem_append_right _ hmem2

/-- If every visual step up to the cap yields a response containing at
least one function call, the sub-loop runs all of them and returns the
max-steps summary over the accumulated history. -/
theorem visualLoop_steps (env : VisualEnv) :
    ∀ (remaining step : Nat) (hist : List String),
      (∀ i, i < remaining →
        ∃ parts, env.response (step + i) = some parts
          ∧ parts.filterMap (fun p => p.functionCall) ≠ []) →
      visualLoop env remaining step hist =
        vMaxStepsOutput (hist ++ vHistRange env step remaining) := by
  intro remaining
  induction remaining with
  | zero =>
    intro step hist _
    rw [visualLoop, vHistRange, List.append_nil]
  | succ r ih =>
    intro step hist h
    obtain ⟨parts, hresp, hcalls⟩ := h 0 (Nat.succ_pos r)
    rw [Nat.add_zero] at hresp
    rw [visualLoop, hresp]
    dsimp only
    rw [if_neg hcalls]
    rw [ih (step + 1) _ (fun i hi => by
      have := h (i + 1) (by omega)
      have harith : step + (i + 1) = step + 1 + i := by omega
      rw [harith] at this
      exact this)]
    rw [vHistRange, vHistAt, vCallsAt, hresp]
    rw [List.append_assoc]
    rfl

/-! ### Claim theorems -/

/-- C1: when the model stream raises the error whose message indicates
the empty/stream-ended-without-content condition
(`Model stream ended with empty response text`), the code does NOT treat
the turn as empty and continue — the `catch` block logs
"Continuing..." but then falls through to `return msg`, so `runTask`
aborts after a single turn and returns the error string.  This evaluates
the embedded code at the failing input and exhibits that divergence from
the claim (and from the source's own comment, which announces graceful
continuation via a check that does not exist in the code). -/
theorem c1_empty_stream_error_aborts_task :
    runTask envC1 "task" =
      .ok { result := "Error calling model: Model stream ended with empty response text",
            events := [Event.capture (.ok "TREE"),
                       Event.modelCall
                         [Part.text "<accessibility_tree>\nTREE\n</accessibility_tree>",
                          Part.text "Task: task"],
                       Event.emit "Error calling model: Model stream ended with empty response text"] }
    ∧ (modelPayloads [Event.capture (.ok "TREE"),
                      Event.modelCall
                        [Part.text "<accessibility_tree>\nTREE\n</accessibility_tree>",
                         Part.text "Task: task"],
                      Event.emit "Error calling model: Model stream ended with empty response text"]).length = 1 :=
  ⟨rfl, rfl⟩

/-- C2 counterexample: the second `updateBorderOverlay` call sits outside
every `try`/`catch`; when it throws, the exception propagates out of
`runTask` unhandled, so the caller does not receive a string. -/
theorem c2_counterexample : runTask envC2 "task" = .error "Page closed" := rfl

/-- C2 (amended): provided the post-connection border-overlay update does
not throw, `runTask` always returns a string for every prompt,
cancellation token and model/driver behaviour. -/
theorem c2_amended (env : Env) (prompt : String) (h : env.overlay2Fail = none) :
    ∃ r, runTask env prompt = .ok r := by
  rw [runTask]
  cases hc : env.connectFail with
  | some m => exact ⟨_, rfl⟩
  | none =>
    rw [h]
    dsimp only
    cases hr : runTurns env MAX_ITERATIONS 0 (initState prompt) with
    | finished st => exact ⟨_, rfl⟩
    | earlyReturn st msg => exact ⟨_, rfl⟩

/-- C2 witness: a concrete well-behaved environment on which the amended
theorem applies. -/
theorem c2_amended_witness : ∃ r, runTask envC2w "task" = .ok r :=
  c2_amended envC2w "task" rfl

/-- C9: if each of the 5 visual-delegate steps yields a model response
containing at least one function call, the sub-loop returns normally with
the max-steps-marker summary over the full ordered action history of all
steps. -/
theorem c9_theorem (env : VisualEnv)
    (h : ∀ i, i < VISUAL_MAX_STEPS →
      ∃ parts, env.response i = some parts
        ∧ parts.filterMap (fun p => p.functionCall) ≠ []) :
    runVisualDelegate env = vMaxStepsOutput (vHistRange env 0 VISUAL_MAX_STEPS) := by
  rw [runVisualDelegate,
      visualLoop_steps env VISUAL_MAX_STEPS 0 [] (fun i hi => by simpa using h i hi)]
  rw [List.nil_append]

set_option maxRecDepth 4096 in
/-- C9 witness: a concrete delegate environment requesting one coordinate
click per step; the summary carries the max-steps marker and all five
history lines. -/
theorem c9_theorem_witness :
    runVisualDelegate venvC9w = vMaxStepsOutput (vHistRange venvC9w 0 VISUAL_MAX_STEPS)
    ∧ vMaxStepsOutput (vHistRange venvC9w 0 VISUAL_MAX_STEPS) =
        "Visual Agent reached max steps.\nActions Taken:\n- click_at(x=10, y=20) => \x7b\"output\":\"clicked\"\x7d\n- click_at(x=10, y=20) => \x7b\"output\":\"clicked\"\x7d\n- click_at(x=10, y=20) => \x7b\"output\":\"clicked\"\x7d\n- click_at(x=10, y=20) => \x7b\"output\":\"clicked\"\x7d\n- click_at(x=10, y=20) => \x7b\"output\":\"clicked\"\x7d" :=
  ⟨c9_theorem venvC9w (fun i _ =>
    ⟨[{ vtext := some "clicking",
        functionCall := some { name := "click_at", args := [("x", "10"), ("y", "20")] } }],
     rfl, by decide⟩), by decide⟩

/-- C5: for every prompt, cancellation schedule and model/driver
behaviour, the orchestrator executes at most `MAX_ITERATIONS` (20) model
turns; and whenever the run is not cut short by a connection or streaming
failure, it terminates returning the response of the last dispatched
`complete_task` call, or the generic `Task finished` message when none
was produced. -/
theorem c5_theorem (env : Env) (prompt : String) :
    (∀ r, runTask env prompt = .ok r → (modelPayloads r.events).length ≤ MAX_ITERATIONS)
    ∧ (env.connectFail = none → env.overlay2Fail = none →
        (∀ t, (env.stream t).err = none) →
        ∃ r, runTask env prompt = .ok r
          ∧ r.result = lastD (ctResponses r.events) "Task finished") := by
  constructor
  · intro r hr
    rw [runTask] at hr
    cases hc : env.connectFail with
    | some m =>
      rw [hc] at hr
      dsimp only at hr
      cases hr
      simp [modelPayloads, MAX_ITERATIONS]
    | none =>
      rw [hc] at hr
      dsimp only at hr
      cases ho : env.overlay2Fail with
      | some m => rw [ho] at hr; cases hr
      | none =>
        rw [ho] at hr
        dsimp only at hr
        obtain ⟨tl, ps, tr, hev, hlen, _, _, _, _⟩ :=
          runTurns_main env MAX_ITERATIONS 0 (initState prompt)
        cases hrun : runTurns env MAX_ITERATIONS 0 (initState prompt) with
        | finished st =>
          rw [hrun] at hr hev
          dsimp only [eventsOf] at hev
          cases hr
          show (modelPayloads st.events).length ≤ MAX_ITERATIONS
          rw [hev, show (initState prompt).events = [] from rfl, List.nil_append]
          exact hlen
        | earlyReturn st msg =>
          rw [hrun] at hr hev
          dsimp only [eventsOf] at hev
          cases hr
          show (modelPayloads st.events).length ≤ MAX_ITERATIONS
          rw [hev, show (initState prompt).events = [] from rfl, List.nil_append]
          exact hlen
  · intro hconn hov herr
    obtain ⟨st', hfin⟩ := runTurns_finishes env herr MAX_ITERATIONS 0 (initState prompt)
    obtain ⟨tl, ps, tr, hev, _, _, _, hne, hfinS⟩ :=
      runTurns_main env MAX_ITERATIONS 0 (initState prompt)
    have hsum := hfinS st' hfin
    rw [hfin] at hev
    dsimp only [eventsOf] at hev
    rw [show (initState prompt).events = [] from rfl, List.nil_append] at hev
    rw [show (initState prompt).taskSummary = "" from rfl] at hsum
    refine ⟨{ result := if st'.taskSummary = "" then "Task finished" else st'.taskSummary,
              events := st'.events }, ?_, ?_⟩
    · rw [runTask, hconn, hov]
      dsimp only
      rw [hfin]
    · show (if st'.taskSummary = "" then "Task finished" else st'.taskSummary) =
        lastD (ctResponses st'.events) "Task finished"
      rw [hev]
      by_cases hct : ctResponses tl = []
      · rw [hct] at hsum ⊢
        rw [hsum]
        rfl
      · have hmem := lastD_mem (ctResponses tl) hct ""
        have hnv := hne _ hmem
        rw [if_neg (by rw [hsum]; exact hnv)]
        rw [hsum]
        exact lastD_irrel hct "" "Task finished"

/-- C5 witness: a run completing on the first turn; the bound and the
returned-summary characterisation hold on it. -/
theorem c5_theorem_witness :
    (modelPayloads ({ result := "All done",
                      events := [Event.capture (.ok ""),
                                 Event.modelCall [Part.text "Task: task"],
                                 Event.dispatch "complete_task" "All done",
                                 Event.emit "✅ All done"] } : RunResult).events).length ≤
      MAX_ITERATIONS
    ∧ ∃ r, runTask envC5w "task" = .ok r
        ∧ r.result = lastD (ctResponses r.events) "Task finished" :=
  ⟨(c5_theorem envC5w "task").1 _ rfl, (c5_theorem envC5w "task").2 rfl rfl (fun _ => rfl)⟩

/-- C6: on every normally-returning run, the capture / model-call
skeleton of the trace is a sequence of (state capture, model call) pairs
— exactly one capture per turn, immediately before that turn's model
invocation — possibly followed by one final capture whose turn was
cancelled before its model call; and each model call's payload begins
with the state parts of the capture made in that same turn, so a
snapshot is requested anew every turn and never reused from a prior
turn. -/
theorem c6_theorem (env : Env) (prompt : String) (r : RunResult)
    (hr : runTask env prompt = .ok r) :
    ∃ ps tr, cmTrace r.events = pairFlat ps ++ capOpt tr ∧ freshPairs ps := by
  rw [runTask] at hr
  cases hc : env.connectFail with
  | some m =>
    rw [hc] at hr
    dsimp only at hr
    cases hr
    exact ⟨[], none, by simp [cmTrace, cmOf, pairFlat, capOpt], by simp [freshPairs]⟩
  | none =>
    rw [hc] at hr
    dsimp only at hr
    cases ho : env.overlay2Fail with
    | some m => rw [ho] at hr; cases hr
    | none =>
      rw [ho] at hr
      dsimp only at hr
      obtain ⟨tl, ps, tr, hev, _, hcm, hfresh, _, _⟩ :=
        runTurns_main env MAX_ITERATIONS 0 (initState prompt)
      cases hrun : runTurns env MAX_ITERATIONS 0 (initState prompt) with
      | finished st =>
        rw [hrun] at hr hev
        dsimp only [eventsOf] at hev
        cases hr
        refine ⟨ps, tr, ?_, hfresh⟩
        show cmTrace st.events = _
        rw [hev, show (initState prompt).events = [] from rfl, List.nil_append]
        exact hcm
      | earlyReturn st msg =>
        rw [hrun] at hr hev
        dsimp only [eventsOf] at hev
        cases hr
        refine ⟨ps, tr, ?_, hfresh⟩
        show cmTrace st.events = _
        rw [hev, show (initState prompt).events = [] from rfl, List.nil_append]
        exact hcm

/-- C6 witness: the two-turn run of `envC6w` (a navigate turn followed by
a completion turn) exhibits the capture-then-model-call pairing. -/
theorem c6_theorem_witness :
    ∃ ps tr,
      cmTrace ({ result := "Done",
                 events := [Event.capture (.ok "TREE"),
                            Event.modelCall
                              [Part.text "<accessibility_tree>\nTREE\n</accessibility_tree>",
                               Part.text "Task: task"],
                            Event.dispatch "navigate" "Navigated",
                            Event.capture (.ok "TREE"),
                            Event.modelCall
                              [Part.text "<accessibility_tree>\nTREE\n</accessibility_tree>",
                               Part.functionResponse "navigate" "Navigated"],
                            Event.dispatch "complete_task" "Done",
                            Event.emit "✅ Done"] } : RunResult).events = pairFlat ps ++ capOpt tr
      ∧ freshPairs ps :=
  c6_theorem envC6w "task" _ rfl

/-- C7: if the run reaches a turn whose queued calls contain a single
`complete_task` call with summary `Done` — possibly with other,
non-completing calls queued in the same turn — then `runTask` returns
`"Done"` and no further orchestrator turns execute (the model is invoked
exactly `t + 1` times). -/
theorem c7_theorem (env : Env) (prompt : String) (t : Nat)
    (hconn : env.connectFail = none) (hov : env.overlay2Fail = none)
    (hab : env.abortAfter = none)
    (ht : t < MAX_ITERATIONS)
    (hpre : ∀ i, i < t → (env.stream i).err = none ∧ noCT (allCalls (env.stream i)))
    (herr : (env.stream t).err = none)
    (l1 l2 : List FunctionCall) (ct : FunctionCall)
    (hsplit : allCalls (env.stream t) = l1 ++ ct :: l2)
    (hctn : ct.name = some "complete_task")
    (hsummary : ct.args.lookup "summary" = some "Done")
    (hno1 : noCT l1) (hno2 : noCT l2) :
    ∃ r, runTask env prompt = .ok r
      ∧ r.result = "Done"
      ∧ (modelPayloads r.events).length = t + 1 := by
  have heff : effectiveSummary ct.args = "Done" := by
    rw [effectiveSummary, hsummary]
    rfl
  obtain ⟨r, hok, hres, hlen, _⟩ :=
    runTask_ct env prompt t hconn hov hab ht hpre herr l1 l2 ct hsplit hctn hno1 hno2
  exact ⟨r, hok, by rw [hres, heff], hlen⟩

/-- C7 witness: turn 0 queues `complete_task(summary="Done")` followed by
a `click` call; the run returns `"Done"` after exactly one turn. -/
theorem c7_theorem_witness :
    ∃ r, runTask envC7w "task" = .ok r
      ∧ r.result = "Done"
      ∧ (modelPayloads r.events).length = 0 + 1 :=
  c7_theorem envC7w "task" 0 rfl rfl rfl (by decide)
    (fun i hi => absurd hi (Nat.not_lt_zero i)) rfl
    [] [{ name := some "click", args := [("uid", "1_2")] }]
    { name := some "complete_task", args := [("summary", "Done")] }
    rfl rfl rfl
    (fun c hc => absurd hc (List.not_mem_nil c))
    (fun c hc => by
      rw [List.mem_singleton] at hc
      rw [hc]
      decide)

/-- C10: a dispatched `complete_task` call whose `summary` argument is
absent or the empty string produces the default `Task completed` both as
the dispatched function response and as the value `runTask` returns
(rather than the generic `Task finished` fallback used when no completion
occurred). -/
theorem c10_theorem (env : Env) (prompt : String) (t : Nat)
    (hconn : env.connectFail = none) (hov : env.overlay2Fail = none)
    (hab : env.abortAfter = none)
    (ht : t < MAX_ITERATIONS)
    (hpre : ∀ i, i < t → (env.stream i).err = none ∧ noCT (allCalls (env.stream i)))
    (herr : (env.stream t).err = none)
    (l1 l2 : List FunctionCall) (ct : FunctionCall)
    (hsplit : allCalls (env.stream t) = l1 ++ ct :: l2)
    (hctn : ct.name = some "complete_task")
    (hsummary : ct.args.lookup "summary" = none ∨ ct.args.lookup "summary" = some "")
    (hno1 : noCT l1) (hno2 : noCT l2) :
    ∃ r, runTask env prompt = .ok r
      ∧ r.result = "Task completed"
      ∧ Event.dispatch "complete_task" "Task completed" ∈ r.events := by
  have heff : effectiveSummary ct.args = "Task completed" := by
    rw [effectiveSummary]
    rcases hsummary with h | h
    · rw [h]
    · rw [h]
      rfl
  obtain ⟨r, hok, hres, _, hmem⟩ :=
    runTask_ct env prompt t hconn hov hab ht hpre herr l1 l2 ct hsplit hctn hno1 hno2
  refine ⟨r, hok, by rw [hres, heff], ?_⟩
  rw [← heff]
  exact hmem

/-- C10 witness: turn 0 queues `complete_task(summary="")`; the dispatch
and the returned value are both `Task completed`. -/
theorem c10_theorem_witness :
    ∃ r, runTask envC10w "task" = .ok r
      ∧ r.result = "Task completed"
      ∧ Event.dispatch "complete_task" "Task completed" ∈ r.events :=
  c10_theorem envC10w "task" 0 rfl rfl rfl (by decide)
    (fun i hi => absurd hi (Nat.not_lt_zero i)) rfl
    [] [] { name := some "complete_task", args := [("summary", "")] }
    rfl rfl (Or.inr rfl)
    (fun c hc => absurd hc (List.not_mem_nil c))
    (fun c hc => absurd hc (List.not_mem_nil c))

set_option maxRecDepth 8192 in
/-- C3 counterexample: after a zero-call turn with a nonempty fresh
snapshot, the next outgoing payload is the snapshot part followed by the
corrective re-prompt — it does not consist solely of the corrective
re-prompt text. -/
theorem c3_counterexample :
    allCalls (envC3.stream 0) = []
    ∧ (runTask envC3 "task").map (fun r => (modelPayloads r.events).get? 1)
        = .ok (some [Part.text "<accessibility_tree>\nT1\n</accessibility_tree>",
                     Part.text correctiveText])
    ∧ (some [Part.text "<accessibility_tree>\nT1\n</accessibility_tree>",
             Part.text correctiveText] : Option (List Part))
        ≠ some [Part.text correctiveText] := by
  refine ⟨rfl, by decide, by decide⟩

/-- C3 (amended): after a turn with zero function calls and no completion,
the carried-over parts are replaced by the single corrective re-prompt
(prior tool-response parts discarded); the next turn's outgoing payload is
the fresh snapshot's state parts — empty only when the snapshot is empty
or capture failed — followed by that corrective text alone. -/
theorem c3_amended (env : Env) (f turn : Nat) (st : LoopState)
    (hab : env.abortAfter = none)
    (herr : (env.stream turn).err = none)
    (hnc : allCalls (env.stream turn) = [])
    (herr2 : (env.stream (turn + 1)).err = none) :
    ∃ tl, eventsOf (runTurns env (f + 2) turn st) = st.events ++ tl
      ∧ (modelPayloads tl).get? 1 =
          some (stateParts (captureText (env.capture (turn + 1))) ++ [Part.text correctiveText]) := by
  rw [show f + 2 = (f + 1) + 1 from rfl,
      runTurns_succ_noabort env hab (f + 1) turn st herr]
  dsimp only
  rw [if_pos hnc]
  obtain ⟨tl2, hev2, hp0⟩ := runTurns_first_payload env hab f (turn + 1)
    { poll := st.poll + 1 + 1 + (env.stream turn).chunks.length + 1,
      currentInputParts := [Part.text correctiveText],
      taskCompleted := st.taskCompleted, taskSummary := st.taskSummary,
      events := st.events ++
        [Event.capture (env.capture turn),
         Event.modelCall (stateParts (captureText (env.capture turn)) ++ st.currentInputParts),
         Event.emit stoppedWarning] } herr2
  refine ⟨[Event.capture (env.capture turn),
           Event.modelCall (stateParts (captureText (env.capture turn)) ++ st.currentInputParts),
           Event.emit stoppedWarning] ++ tl2, ?_, ?_⟩
  · rw [hev2]; simp
  · rw [modelPayloads_append, modelPayloads_cons_capture, modelPayloads_cons_modelCall,
        modelPayloads_cons_emit, modelPayloads_nil, List.singleton_append, List.get?_cons_succ]
    exact hp0

/-- C3 witness: turn 0 of `envC3w` yields no calls and turn 1's capture
fails, so the next payload is exactly the corrective text. -/
theorem c3_amended_witness :
    ∃ tl, eventsOf (runTurns envC3w (18 + 2) 0 (initState "task")) = (initState "task").events ++ tl
      ∧ (modelPayloads tl).get? 1 =
          some (stateParts (captureText (envC3w.capture 1)) ++ [Part.text correctiveText]) :=
  c3_amended envC3w 18 0 (initState "task") rfl rfl rfl rfl

/-- C4 counterexample: with two calls queued in turn 0 and the signal
cancelled at the pre-dispatch check, zero calls execute (no dispatch
event), the cancellation notice goes to the progress callback only, and
`runTask` returns the fallback `Task finished` — not a cancellation
notice. -/
theorem c4_counterexample :
    (allCalls (envC4.stream 0)).length = 2
    ∧ runTask envC4 "task" =
        .ok { result := "Task finished",
              events := [Event.capture (.ok "TREE"),
                         Event.modelCall
                           [Part.text "<accessibility_tree>\nTREE\n</accessibility_tree>",
                            Part.text "Task: task"],
                         Event.emit cancelNotice, Event.emit cancelNotice] }
    ∧ "Task finished" ≠ cancelNotice :=
  ⟨rfl, rfl, by decide⟩

/-- Dispatching a nonempty call list whose first pre-dispatch check
observes the abort emits the cancellation notice and executes nothing. -/
theorem execCalls_abort_first (env : Env) (t i : Nat) (l : List FunctionCall)
    (st : DispatchState) (hl : l ≠ []) (h : pollAborted env st.poll = true) :
    execCalls env t i l st =
      { st with poll := st.poll + 1,
                events := st.events ++ [Event.emit cancelNotice],
                abortedMid := true } := by
  cases l with
  | nil => exact absurd rfl hl
  | cons c rest => rw [execCalls, if_pos h]

/-- One unfolding of the loop for a turn whose streams yield calls but
whose first pre-dispatch check observes the cancellation. -/
theorem runTurns_succ_cancelled_dispatch (env : Env)
    (fuel turn : Nat) (st : LoopState)
    (herr : (env.stream turn).err = none)
    (hne : allCalls (env.stream turn) ≠ [])
    (hcomp : st.taskCompleted = false)
    (h1 : pollAborted env st.poll = false)
    (h2 : pollAborted env (st.poll + 1) = false)
    (hscan : ∀ j, j < (env.stream turn).chunks.length →
      pollAborted env (st.poll + 1 + 1 + j) = false)
    (h3 : pollAborted env (st.poll + 1 + 1 + (env.stream turn).chunks.length) = false)
    (h4 : pollAborted env (st.poll + 1 + 1 + (env.stream turn).chunks.length + 1) = true) :
    runTurns env (fuel + 1) turn st =
      runTurns env fuel (turn + 1)
        { poll := st.poll + 1 + 1 + (env.stream turn).chunks.length + 1 + 1,
          currentInputParts := [],
          taskCompleted := st.taskCompleted, taskSummary := st.taskSummary,
          events := st.events ++
            [Event.capture (env.capture turn)] ++
            [Event.modelCall (stateParts (captureText (env.capture turn)) ++ st.currentInputParts)] ++
            [Event.emit cancelNotice] } := by
  rw [runTurns]
  rw [if_neg (by rw [h1]; exact Bool.false_ne_true)]
  rw [if_neg (by rw [h2]; exact Bool.false_ne_true)]
  dsimp only
  rw [scanChunks_ok env (env.stream turn).chunks (st.poll + 1 + 1) [] hscan]
  dsimp only
  rw [if_neg Bool.false_ne_true, herr]
  dsimp only
  rw [if_neg (by rw [h3]; exact Bool.false_ne_true)]
  rw [List.nil_append]
  rw [if_neg (show ¬chunksCalls (env.stream turn).chunks = [] from hne)]
  rw [execCalls_abort_first env turn 0 _ _ (show chunksCalls (env.stream turn).chunks ≠ [] from hne) h4]
  dsimp only
  rw [if_neg (by rw [hcomp]; exact Bool.false_ne_true)]

/-- C4 (amended): if the cancellation token is first observed cancelled at
the check before the first dispatch of a turn that queued two calls, then
neither call is dispatched, a cancellation notice is emitted to the
progress callback, and the loop exits after that turn's single model call
— while the eventual return value is the fallback summary, not the
notice. -/
theorem c4_amended (env : Env) (fuel turn : Nat) (st : LoopState) (c1 c2 : FunctionCall)
    (habs : env.abortAfter = some (st.poll + 3 + (env.stream turn).chunks.length))
    (herr : (env.stream turn).err = none)
    (hcalls : allCalls (env.stream turn) = [c1, c2])
    (hcomp : st.taskCompleted = false) :
    ∃ tl, eventsOf (runTurns env (fuel + 1) turn st) = st.events ++ tl
      ∧ (∀ n r, Event.dispatch n r ∉ tl)
      ∧ Event.emit cancelNotice ∈ tl
      ∧ (modelPayloads tl).length = 1 := by
  rw [runTurns_succ_cancelled_dispatch env fuel turn st herr
      (by rw [hcalls]; exact List.cons_ne_nil c1 [c2]) hcomp
      (by rw [pollAborted_some habs]; exact decide_eq_false (by omega))
      (by rw [pollAborted_some habs]; exact decide_eq_false (by omega))
      (fun j hj => by rw [pollAborted_some habs]; exact decide_eq_false (by omega))
      (by rw [pollAborted_some habs]; exact decide_eq_false (by omega))
      (by rw [pollAborted_some habs]; exact decide_eq_true (by omega))]
  rcases runTurns_aborted env habs fuel (turn + 1)
    { poll := st.poll + 1 + 1 + (env.stream turn).chunks.length + 1 + 1,
      currentInputParts := [],
      taskCompleted := st.taskCompleted, taskSummary := st.taskSummary,
      events := st.events ++
        [Event.capture (env.capture turn)] ++
        [Event.modelCall (stateParts (captureText (env.capture turn)) ++ st.currentInputParts)] ++
        [Event.emit cancelNotice] }
    (show st.poll + 3 + (env.stream turn).chunks.length ≤
        st.poll + 1 + 1 + (env.stream turn).chunks.length + 1 + 1 by omega) with hA | hA
  · rw [hA]
    refine ⟨[Event.capture (env.capture turn),
             Event.modelCall (stateParts (captureText (env.capture turn)) ++ st.currentInputParts),
             Event.emit cancelNotice], by simp [eventsOf], ?_, by simp, ?_⟩
    · intro n r h
      simp at h
    · rw [modelPayloads_cons_capture, modelPayloads_cons_modelCall, modelPayloads_cons_emit,
          modelPayloads_nil]
      rfl
  · rw [hA]
    refine ⟨[Event.capture (env.capture turn),
             Event.modelCall (stateParts (captureText (env.capture turn)) ++ st.currentInputParts),
             Event.emit cancelNotice, Event.emit cancelNotice], by simp [eventsOf], ?_, by simp, ?_⟩
    · intro n r h
      simp at h
    · rw [modelPayloads_cons_capture, modelPayloads_cons_modelCall, modelPayloads_cons_emit,
          modelPayloads_cons_emit, modelPayloads_nil]
      rfl

/-- C4 witness: `envC4` instantiates the amended statement at turn 0. -/
theorem c4_amended_witness :
    ∃ tl, eventsOf (runTurns envC4 (19 + 1) 0 (initState "task")) = (initState "task").events ++ tl
      ∧ (∀ n r, Event.dispatch n r ∉ tl)
      ∧ Event.emit cancelNotice ∈ tl
      ∧ (modelPayloads tl).length = 1 :=
  c4_amended envC4 19 0 (initState "task")
    { name := some "click", args := [("uid", "1_2")] }
    { name := some "press_key", args := [("key", "Enter")] }
    rfl rfl rfl rfl

set_option maxRecDepth 8192 in
/-- C8 counterexample: a turn emitting one function call without a name
produces no `FunctionResponse` at all — nothing is dispatched and the next
turn's payload contains no function-response part — so the 1:1 pairing
fails for calls that carry no name. -/
theorem c8_counterexample :
    (allCalls (envC8.stream 0)).length = 1
    ∧ (runTask envC8 "task").map
        (fun r => ((modelPayloads r.events).get? 1, dispatchNames r.events))
        = .ok (some [], ["complete_task"]) :=
  ⟨rfl, by decide⟩

/-- C8 (amended): every function call that carries a usable name is paired
1:1, in order, with a `FunctionResponse` of the same name appended to the
next turn's outgoing payload; a dispatch exception becomes an error-text
response and later calls still execute; calls without a usable name are
skipped and receive no response (see `specFunctionResponses`). -/
theorem c8_amended (env : Env) (f turn : Nat) (st : LoopState)
    (hab : env.abortAfter = none)
    (herr : (env.stream turn).err = none)
    (hne : ¬allCalls (env.stream turn) = [])
    (hnoct : noCT (allCalls (env.stream turn)))
    (hcomp : st.taskCompleted = false)
    (herr2 : (env.stream (turn + 1)).err = none) :
    ∃ tl, eventsOf (runTurns env (f + 2) turn st) = st.events ++ tl
      ∧ (modelPayloads tl).get? 1 =
          some (stateParts (captureText (env.capture (turn + 1))) ++
            specFunctionResponses env turn 0 (allCalls (env.stream turn))) := by
  rw [show f + 2 = (f + 1) + 1 from rfl,
      runTurns_succ_noabort env hab (f + 1) turn st herr]
  dsimp only
  rw [if_neg hne]
  obtain ⟨hre, hco, _⟩ := execCalls_noabort env turn hab (allCalls (env.stream turn)) 0
    { poll := st.poll + 1 + 1 + (env.stream turn).chunks.length + 1, responses := [],
      taskCompleted := st.taskCompleted, taskSummary := st.taskSummary,
      events := st.events ++
        [Event.capture (env.capture turn),
         Event.modelCall (stateParts (captureText (env.capture turn)) ++ st.currentInputParts)],
      abortedMid := false }
  obtain ⟨tlE, hevE, hmpE, _, _, _⟩ := execCalls_shape env turn (allCalls (env.stream turn)) 0
    { poll := st.poll + 1 + 1 + (env.stream turn).chunks.length + 1, responses := [],
      taskCompleted := st.taskCompleted, taskSummary := st.taskSummary,
      events := st.events ++
        [Event.capture (env.capture turn),
         Event.modelCall (stateParts (captureText (env.capture turn)) ++ st.currentInputParts)],
      abortedMid := false }
  have hcompd : (execCalls env turn 0 (allCalls (env.stream turn))
      { poll := st.poll + 1 + 1 + (env.stream turn).chunks.length + 1, responses := [],
        taskCompleted := st.taskCompleted, taskSummary := st.taskSummary,
        events := st.events ++
          [Event.capture (env.capture turn),
           Event.modelCall (stateParts (captureText (env.capture turn)) ++ st.currentInputParts)],
        abortedMid := false }).taskCompleted = false := by
    rw [hco, noCT_specCTs hnoct, hcomp]
    rfl
  rw [if_neg (by rw [hcompd]; exact Bool.false_ne_true)]
  obtain ⟨tl2, hev2, hp0⟩ := runTurns_first_payload env hab f (turn + 1)
    { poll := (execCalls env turn 0 (allCalls (env.stream turn))
        { poll := st.poll + 1 + 1 + (env.stream turn).chunks.length + 1, responses := [],
          taskCompleted := st.taskCompleted, taskSummary := st.taskSummary,
          events := st.events ++
            [Event.capture (env.capture turn),
             Event.modelCall (stateParts (captureText (env.capture turn)) ++ st.currentInputParts)],
          abortedMid := false }).poll,
      currentInputParts := (execCalls env turn 0 (allCalls (env.stream turn))
        { poll := st.poll + 1 + 1 + (env.stream turn).chunks.length + 1, responses := [],
          taskCompleted := st.taskCompleted, taskSummary := st.taskSummary,
          events := st.events ++
            [Event.capture (env.capture turn),
             Event.modelCall (stateParts (captureText (env.capture turn)) ++ st.currentInputParts)],
          abortedMid := false }).responses,
      taskCompleted := (execCalls env turn 0 (allCalls (env.stream turn))
        { poll := st.poll + 1 + 1 + (env.stream turn).chunks.length + 1, responses := [],
          taskCompleted := st.taskCompleted, taskSummary := st.taskSummary,
          events := st.events ++
            [Event.capture (env.capture turn),
             Event.modelCall (stateParts (captureText (env.capture turn)) ++ st.currentInputParts)],
          abortedMid := false }).taskCompleted,
      taskSummary := (execCalls env turn 0 (allCalls (env.stream turn))
        { poll := st.poll + 1 + 1 + (env.stream turn).chunks.length + 1, responses := [],
          taskCompleted := st.taskCompleted, taskSummary := st.taskSummary,
          events := st.events ++
            [Event.capture (env.capture turn),
             Event.modelCall (stateParts (captureText (env.capture turn)) ++ st.currentInputParts)],
          abortedMid := false }).taskSummary,
      events := (execCalls env turn 0 (allCalls (env.stream turn))
        { poll := st.poll + 1 + 1 + (env.stream turn).chunks.length + 1, responses := [],
          taskCompleted := st.taskCompleted, taskSummary := st.taskSummary,
          events := st.events ++
            [Event.capture (env.capture turn),
             Event.modelCall (stateParts (captureText (env.capture turn)) ++ st.currentInputParts)],
          abortedMid := false }).events } herr2
  rw [hre, List.nil_append] at hp0
  refine ⟨([Event.capture (env.capture turn),
            Event.modelCall (stateParts (captureText (env.capture turn)) ++ st.currentInputParts)] ++ tlE) ++ tl2,
          ?_, ?_⟩
  · rw [hev2]
    show DispatchState.events _ ++ tl2 = _
    rw [hevE]
    simp
  · rw [modelPayloads_append, modelPayloads_append, modelPayloads_cons_capture,
        modelPayloads_cons_modelCall, modelPayloads_nil, hmpE]
    simp only [List.append_nil, List.cons_append, List.nil_append]
    rw [List.get?_cons_succ]
    exact hp0

/-- C8 witness: turn 0 of `envC8w` queues `press_key` (whose handler
throws) and `click`; both receive responses, the first an error text, and
both appear in the next payload. -/
theorem c8_amended_witness :
    ∃ tl, eventsOf (runTurns envC8w (18 + 2) 0 (initState "task")) = (initState "task").events ++ tl
      ∧ (modelPayloads tl).get? 1 =
          some (stateParts (captureText (envC8w.capture 1)) ++
            specFunctionResponses envC8w 0 0 (allCalls (envC8w.stream 0))) :=
  c8_amended envC8w 18 0 (initState "task") rfl rfl (by decide) (by unfold noCT; decide) rfl rfl

end BrowserAgent
